import Mathlib

/-!
Verification of the catalog import pipeline (marketplace listing ingestion).

This file gives a shallow embedding, in Lean 4, of the core pipeline code:
the extraction strategies and price/category normalisation of
`app/agents/parser_agent.py`, the enrichment fallback of
`app/agents/description_agent.py`, and the identity resolution / upsert /
batch orchestration of `app/agents/catalog_agent.py`.  Machine floats are
modelled by `ℚ` (every comparison in scope is exact at the magnitudes the
code handles), Python `None` by `Option`, Python exceptions by `Except`,
and the catalog store by an explicit pure state.  Theorems about the
embedded definitions settle the specification claims.
-/

/-- Python string truthiness for optional strings: `None` and the empty
string are falsy, every other string is truthy (`if s:` in the source). -/
def truthyS : Option String → Bool
  | none => false
  | some s => s ≠ ""

/-- Python float truthiness for optional numbers: `None` and `0.0` are
falsy (`if x:` in the source). -/
def truthyQ : Option ℚ → Bool
  | none => false
  | some q => q ≠ 0

/-- Modelled from the spec: one `ItemImage` row (position-ordered image URL
owned by a `CatalogItem`).  The ORM model `app.db.models.item_image` is not
part of the provided sources; the fields are those named in spec section 3
and used by `catalog_agent.py` (`image_url`, `position`). -/
structure ItemImageRow where
  image_url : String
  position : Nat
deriving Repr, DecidableEq

/-- Modelled from the spec: one `ItemVariant` row (size, color, sku, stock,
price) owned by a `CatalogItem`.  The ORM model `app.db.models.variant` is
not part of the provided sources; the fields are those named in spec
section 3 and used by `catalog_agent.py`. -/
structure ItemVariantRow where
  size : Option String
  color : Option String
  sku : Option String
  stock : Nat
  price : Option ℚ
deriving Repr, DecidableEq

/-- Modelled from the spec: the persisted `CatalogItem` (`Item` ORM model,
`app.db.models.item`, not part of the provided sources): required `name`,
the optional scalar columns named in spec section 3 and written by
`catalog_agent.py`, and the owned image and variant rows. -/
structure CItem where
  id : Nat
  name : String
  brand : Option String
  color : Option String
  size : Option String
  clothing_type : Option String
  description : Option String
  price : Option ℚ
  category : Option String
  article : Option String
  style : Option String
  image_url : Option String
  images : List ItemImageRow
  variants : List ItemVariantRow
deriving Repr, DecidableEq

/-- The catalog store: the list of persisted items (in insertion order, as
`query(...).first()` scans) and the next autoincrement id. -/
structure DB where
  items : List CItem
  next_id : Nat
deriving Repr, DecidableEq

/-- One variant dict as built by `CatalogAgent._create_variants`: the keys
`size`, `color`, `sku`, `stock`, `price` are always present. -/
structure VariantData where
  size : Option String
  color : Option String
  sku : Option String
  stock : Nat
  price : Option ℚ
deriving Repr, DecidableEq

/-- `PerfectItem` (catalog_agent.py, lines 41-71): the normalised candidate
record handed to `_save_to_database`. -/
structure PerfectItem where
  name : String
  brand : Option String
  color : Option String
  size : Option String
  clothing_type : Option String
  description : Option String
  price : Option ℚ
  category : Option String
  article : Option String
  style : Option String
  image_url : Option String
  image_urls : List String
  variants : List VariantData
  ai_enhanced : Bool
deriving Repr, DecidableEq

/-- `ImportResult` (catalog_agent.py, lines 74-82), without the
`item_data`/`warnings` payload, which no claim mentions. -/
structure ImportResultM where
  success : Bool
  item_id : Option Nat
  action : String
  errors : List String
deriving Repr, DecidableEq

/-- The loop body of `CatalogAgent._process_item_images` (lines 542-558):
append an `ItemImage` row at position `len(existing_urls) + i` for each
enumerated url, backfilling the primary `image_url` when it is falsy. -/
def imagesLoop (base : Nat) : CItem → List (Nat × String) → CItem
  | it, [] => it
  | it, (i, u) :: rest =>
      let it2 : CItem :=
        { it with
          images := it.images ++ [⟨u, base + i⟩]
          image_url := if truthyS it.image_url then it.image_url else some u }
      imagesLoop base it2 rest

/-- `CatalogAgent._process_item_images` (lines 527-562): collect the set of
already stored urls, keep only new urls, cap at 8, and append rows. -/
def processItemImages (item : CItem) (image_urls : List String) : CItem :=
  if image_urls = [] then item
  else
    let existing_urls := (item.images.map (·.image_url)).dedup
    let new_urls := image_urls.filter (fun u => !(existing_urls.contains u))
    let urls_to_add := new_urls.take 8
    imagesLoop existing_urls.length item urls_to_add.enum

/-- `CatalogAgent._process_item_variants` (lines 564-593): append one
`ItemVariant` row per variant dict whose sku is truthy and not among the
already stored skus (the stored-sku set is computed once, before the loop). -/
def processItemVariants (item : CItem) (vds : List VariantData) : CItem :=
  if vds = [] then item
  else
    let existing_skus := item.variants.map (·.sku)
    let fresh := vds.filter
      (fun vd => truthyS vd.sku && !(existing_skus.contains vd.sku))
    let rows := fresh.map
      (fun vd => ItemVariantRow.mk vd.size vd.color vd.sku vd.stock vd.price)
    { item with variants := item.variants ++ rows }

/-- `CatalogAgent._create_new_item` (lines 400-449): construct the `Item`
row field by field, then materialise images and variants. -/
def createNewItem (db : DB) (p : PerfectItem) : CItem × DB :=
  let item0 : CItem :=
    { id := db.next_id, name := p.name, brand := p.brand, color := p.color
      size := p.size, clothing_type := p.clothing_type
      description := p.description, price := p.price, category := p.category
      article := p.article, style := p.style, image_url := p.image_url
      images := [], variants := [] }
  let item1 := if p.image_urls = [] then item0 else processItemImages item0 p.image_urls
  let item2 := if p.variants = [] then item1 else processItemVariants item1 p.variants
  (item2, { items := db.items ++ [item2], next_id := db.next_id + 1 })

/-- Price step of `CatalogAgent._update_existing_item` (lines 459-462):
the price is overwritten whenever the new price is truthy and differs. -/
def updPrice (p : PerfectItem) (s : CItem × Bool) : CItem × Bool :=
  if truthyQ p.price ∧ s.1.price ≠ p.price
  then ({ s.1 with price := p.price }, true) else s

/-- Description step of `_update_existing_item` (lines 464-471): overwrite
when the new description is truthy and (the old one is falsy, or the new
one is strictly longer, or the record is AI-flagged). -/
def updDescription (p : PerfectItem) (s : CItem × Bool) : CItem × Bool :=
  if truthyS p.description ∧
      (¬ truthyS s.1.description
        ∨ (s.1.description.getD "").length < (p.description.getD "").length
        ∨ p.ai_enhanced = true)
  then ({ s.1 with description := p.description }, true) else s

/-- The fill-if-empty rule of `_update_existing_item` (lines 484-490):
a scalar column receives the new value only when the new value is truthy
and the stored one is falsy.  Returns the new value and whether it changed. -/
def fillField (pv dv : Option String) : Option String × Bool :=
  if truthyS pv ∧ ¬ truthyS dv then (pv, true) else (dv, false)

/-- Scalar step of `_update_existing_item` (lines 473-490): fill the six
columns brand, color, size, clothing_type, category, style if empty. -/
def updScalars (p : PerfectItem) (s : CItem × Bool) : CItem × Bool :=
  let b := fillField p.brand s.1.brand
  let c := fillField p.color s.1.color
  let sz := fillField p.size s.1.size
  let ct := fillField p.clothing_type s.1.clothing_type
  let cat := fillField p.category s.1.category
  let st := fillField p.style s.1.style
  ({ s.1 with brand := b.1, color := c.1, size := sz.1, clothing_type := ct.1
              category := cat.1, style := st.1 },
   s.2 || b.2 || c.2 || sz.2 || ct.2 || cat.2 || st.2)

/-- Primary-image step of `_update_existing_item` (lines 492-495): fill
`image_url` only when it is currently falsy. -/
def updImageUrl (p : PerfectItem) (s : CItem × Bool) : CItem × Bool :=
  if truthyS p.image_url ∧ ¬ truthyS s.1.image_url
  then ({ s.1 with image_url := p.image_url }, true) else s

/-- Image step of `_update_existing_item` (lines 497-504): append images
only when the incoming url count exceeds the stored row count. -/
def updImages (p : PerfectItem) (s : CItem × Bool) : CItem × Bool :=
  if p.image_urls ≠ [] ∧ s.1.images.length < p.image_urls.length
  then (processItemImages s.1 p.image_urls, true) else s

/-- Variant step of `_update_existing_item` (lines 506-509): append
variants only when the incoming count exceeds the stored row count. -/
def updVariants (p : PerfectItem) (s : CItem × Bool) : CItem × Bool :=
  if p.variants ≠ [] ∧ s.1.variants.length < p.variants.length
  then (processItemVariants s.1 p.variants, true) else s

/-- `CatalogAgent._update_existing_item` (lines 451-525): the field-level
merge, executed in source order; the Boolean is the `updated` flag. -/
def updateExistingItem (p : PerfectItem) (item : CItem) : CItem × Bool :=
  updVariants p (updImages p (updImageUrl p (updScalars p
    (updDescription p (updPrice p (item, false))))))

/-- `CatalogAgent._find_existing_item` (lines 367-398): lookup cascade
article, then (brand, name), then name; each step takes the first row in
store order; returns the index and the row. -/
def findExistingItem (db : DB) (p : PerfectItem) : Option (Nat × CItem) :=
  let byArticle :=
    if truthyS p.article then
      db.items.enum.find? (fun e => e.2.article == p.article)
    else none
  match byArticle with
  | some e => some e
  | none =>
      let byBrandName :=
        if truthyS p.brand then
          db.items.enum.find? (fun e => e.2.brand == p.brand && e.2.name == p.name)
        else none
      match byBrandName with
      | some e => some e
      | none => db.items.enum.find? (fun e => e.2.name == p.name)

/-- `CatalogAgent._save_to_database` (lines 314-365), happy path: resolve,
then merge-update (action `updated` or `skipped`, success iff a field
changed) or create (action `created`).  The per-item transaction commits
the returned store. -/
def saveToDatabase (db : DB) (p : PerfectItem) : ImportResultM × DB :=
  match findExistingItem db p with
  | some (i, it) =>
      let r := updateExistingItem p it
      ({ success := r.2, item_id := some it.id
         action := if r.2 then "updated" else "skipped", errors := [] },
       { db with items := db.items.set i r.1 })
  | none =>
      let r := createNewItem db p
      ({ success := true, item_id := some r.1.id, action := "created"
         errors := [] }, r.2)

/-- Importing a whole candidate list sequentially (each item commits its
own transaction, as in `_save_to_database`). -/
def importAll (db : DB) (ps : List PerfectItem) : DB :=
  ps.foldl (fun d p => (saveToDatabase d p).2) db

/-- The empty catalog store. -/
def emptyDB : DB := { items := [], next_id := 1 }

/-! ## Batch orchestration (`catalog_agent.py`, lines 128-191) -/

/-- The error `ImportResult` built when an item-level exception is caught
(lines 183-187 and 218-222). -/
def errorResult (msg : String) : ImportResultM :=
  { success := false, item_id := none, action := "error", errors := [msg] }

/-- `CatalogAgent._process_single_product` / the `gather` exception filter
of `_process_batch`: `step` is the per-item processing (enrichment,
normalisation, persistence); any raised exception is converted to an
`error` outcome and never escapes. -/
def processSingleProduct (step : α → Except String ImportResultM)
    (p : α) : ImportResultM :=
  match step p with
  | .ok r => r
  | .error e => errorResult e

/-- `CatalogAgent._process_batch` (lines 167-191): all items of a chunk
are processed (concurrently in the source; `asyncio.gather` returns the
outcomes in input order), exceptions becoming `error` outcomes. -/
def processBatch (step : α → Except String ImportResultM)
    (batch : List α) : List ImportResultM :=
  batch.map (processSingleProduct step)

/-- The chunking loop `for i in range(0, len(products), batch_size)` of
`import_parsed_products` (lines 142-149): fixed-size slices in order.
Structural recursion on a fuel that the wrapper sets to the list length
plus one, which always suffices since every step drops at least one
element of a nonempty list. -/
def chunksOfF : Nat → Nat → List α → List (List α)
  | 0, _, _ => []
  | _, _, [] => []
  | _ + 1, 0, _ :: _ => []
  | fuel + 1, n + 1, x :: xs =>
      (x :: xs).take (n + 1) :: chunksOfF fuel (n + 1) (xs.drop n)

/-- The chunking loop with sufficient fuel. -/
def chunksOf (n : Nat) (l : List α) : List (List α) :=
  chunksOfF (l.length + 1) n l

/-- `CatalogAgent.import_parsed_products` (lines 128-165): process the
candidates in chunks of 10 and concatenate the per-item outcomes. -/
def importParsedProductsResults (step : α → Except String ImportResultM)
    (products : List α) : List ImportResultM :=
  ((chunksOf 10 products).map (processBatch step)).flatten

/-- The per-action counter of `_create_import_summary` (lines 600-602):
how many outcomes carry the given action string. -/
def summaryActions (results : List ImportResultM) (a : String) : Nat :=
  results.countP (fun r => r.action == a)

/-- The `failed` list length of `_create_import_summary` (line 598). -/
def summaryFailed (results : List ImportResultM) : Nat :=
  results.countP (fun r => !r.success)

/-- The `successful` list length of `_create_import_summary` (line 597). -/
def summarySuccessful (results : List ImportResultM) : Nat :=
  results.countP (fun r => r.success)

/-- `ImportSummary` (catalog_agent.py, lines 85-96), the counter fields. -/
structure ImportSummaryM where
  imported_count : Nat
  updated_count : Nat
  skipped_count : Nat
  error_count : Nat
  total_processed : Nat
deriving Repr, DecidableEq

/-- The aggregation of `import_parsed_products_to_catalog` (lines 627-659):
per-action counts from the `actions` dict, `error_count` from the summary
`failed` field, `total_processed` from the result list length. -/
def importSummaryOfResults (results : List ImportResultM) : ImportSummaryM :=
  { imported_count := summaryActions results "created"
    updated_count := summaryActions results "updated"
    skipped_count := summaryActions results "skipped"
    error_count := summaryFailed results
    total_processed := results.length }

/-- `CatalogAgent.import_parsed_products_to_catalog`: run the batched
run and fold the outcomes into an `ImportSummary`. -/
def importParsedProductsToCatalog (step : α → Except String ImportResultM)
    (products : List α) : ImportSummaryM :=
  importSummaryOfResults (importParsedProductsResults step products)

/-! ## Price parsing

`EnhancedLamodaParser._extract_price_from_text` (parser_agent.py, lines
950-985) and `DescriptionAgent._parse_price` (description_agent.py, lines
415-432).  The regex `\b(\d+(?:\s+\d+)*)\b` and the fallback
`\b(\d{3,7})\b` are modelled by explicit scanners with the same matching
semantics (leftmost, greedy with backtracking only at the trailing word
boundary, non-overlapping). -/

/-- A regex word character (`\w`): ASCII alphanumerics, underscore, and the
Cyrillic block appearing in this data. -/
def isWordChar (c : Char) : Bool :=
  c.isAlphanum || c = '_' || (0x400 ≤ c.toNat && c.toNat ≤ 0x4FF)

/-- The trailing `\b`: the remainder is empty or starts with a non-word
character. -/
def boundaryOk : List Char → Bool
  | [] => true
  | c :: _ => !isWordChar c

/-- Numeric value of a digit string. -/
def digitsVal (l : List Char) : Nat :=
  l.foldl (fun a c => 10 * a + (c.toNat - 48)) 0

/-- Greedy parse of the regex groups "whitespace run then digit run",
repeated: each group is a nonempty whitespace run followed by a nonempty
digit run.  Returns the group segments in order and the remainder.
Structural recursion on a fuel that the callers set to the input length
plus one, which always suffices since every step consumes at least two
characters. -/
def numGroupsListF : Nat → List Char → List (List Char) × List Char
  | 0, r => ([], r)
  | fuel + 1, r =>
      if r.takeWhile Char.isWhitespace = [] then ([], r)
      else
        if (r.dropWhile Char.isWhitespace).takeWhile Char.isDigit = [] then ([], r)
        else
          let tail := numGroupsListF fuel
            ((r.dropWhile Char.isWhitespace).dropWhile Char.isDigit)
          ((r.takeWhile Char.isWhitespace
              ++ (r.dropWhile Char.isWhitespace).takeWhile Char.isDigit) :: tail.1,
           tail.2)

/-- Attempted match of the spaced-digit-groups regex at a position whose
first character is a digit (the leading boundary is checked by the
caller).  Greedy: if the trailing boundary fails after the last group,
the last group is dropped (the match then ends before that group's
whitespace, where the boundary holds); with no group to drop the attempt
fails, as every shorter prefix of a digit run is followed by a digit. -/
def matchNumAt (cs : List Char) : Option (List Char × List Char) :=
  let gs := numGroupsListF (cs.length + 1) (cs.dropWhile Char.isDigit)
  if boundaryOk gs.2 then
    some (cs.takeWhile Char.isDigit ++ gs.1.flatten, gs.2)
  else
    match gs.1.getLast? with
    | none => none
    | some lastG =>
        some (cs.takeWhile Char.isDigit ++ gs.1.dropLast.flatten, lastG ++ gs.2)

/-- The scan for the regex of digit groups separated by whitespace with
word boundaries on both sides (re.findall: leftmost, non-overlapping;
`prev` records whether the previous character was a word character,
deciding the leading boundary).  Fuel as above: a successful match always
consumes at least the leading digit, a failed attempt advances one
character. -/
def scan1F : Nat → Bool → List Char → List String
  | 0, _, _ => []
  | _ + 1, _, [] => []
  | fuel + 1, prev, c :: cs =>
      if c.isDigit && !prev then
        match matchNumAt (c :: cs) with
        | some mr => mr.1.asString :: scan1F fuel true mr.2
        | none => scan1F fuel (isWordChar c) cs
      else scan1F fuel (isWordChar c) cs

/-- The first-pattern scan with sufficient fuel. -/
def scan1 (prev : Bool) (l : List Char) : List String :=
  scan1F (l.length + 1) prev l

/-- The scan for the fallback regex of bare 3-7 digit runs with word
boundaries: a maximal digit run matches iff its length is between 3 and 7
and both boundaries hold (a shorter prefix is always followed by a digit,
so backtracking never helps, and no interior position has a leading
boundary, so a failed run is skipped whole).  Fuel as above. -/
def scan2F : Nat → Bool → List Char → List String
  | 0, _, _ => []
  | _ + 1, _, [] => []
  | fuel + 1, prev, c :: cs =>
      if c.isDigit && !prev then
        if 3 ≤ ((c :: cs).takeWhile Char.isDigit).length ∧
            ((c :: cs).takeWhile Char.isDigit).length ≤ 7 ∧
            boundaryOk ((c :: cs).dropWhile Char.isDigit) then
          ((c :: cs).takeWhile Char.isDigit).asString ::
            scan2F fuel true ((c :: cs).dropWhile Char.isDigit)
        else scan2F fuel true ((c :: cs).dropWhile Char.isDigit)
      else scan2F fuel (isWordChar c) cs

/-- The fallback-pattern scan with sufficient fuel. -/
def scan2 (prev : Bool) (l : List Char) : List String :=
  scan2F (l.length + 1) prev l

/-- First loop of `_extract_price_from_text` (lines 962-972): for each
match, delete the space characters, convert (a failed conversion is a
caught `ValueError`; stripping leading zeros does not change the value),
and return the first value inside [100, 10000000]. -/
def firstPriceIn : List String → Option ℚ
  | [] => none
  | m :: rest =>
      if (m.toList.filter (fun c => c ≠ ' ')).all Char.isDigit then
        if 100 ≤ (digitsVal (m.toList.filter (fun c => c ≠ ' ')) : ℚ) ∧
            (digitsVal (m.toList.filter (fun c => c ≠ ' ')) : ℚ) ≤ 10000000 then
          some ((digitsVal (m.toList.filter (fun c => c ≠ ' ')) : ℚ))
        else firstPriceIn rest
      else firstPriceIn rest

/-- Fallback loop of `_extract_price_from_text` (lines 975-983): the
matches are pure digit runs; return the first value inside the range. -/
def firstPriceFallback : List String → Option ℚ
  | [] => none
  | m :: rest =>
      if 100 ≤ (digitsVal m.toList : ℚ) ∧ (digitsVal m.toList : ℚ) ≤ 10000000 then
        some ((digitsVal m.toList : ℚ))
      else firstPriceFallback rest

/-- Python `str.replace` on character lists (all non-overlapping
occurrences, left to right).  Structural recursion on a fuel that the
wrapper sets to the input length plus one; every step consumes at least
one character. -/
def pyReplaceF : Nat → List Char → List Char → List Char → List Char
  | 0, s, _, _ => s
  | _ + 1, [], _, _ => []
  | fuel + 1, c :: cs, pat, rep =>
      if pat ≠ [] ∧ pat.isPrefixOf (c :: cs) then
        rep ++ pyReplaceF fuel ((c :: cs).drop pat.length) pat rep
      else c :: pyReplaceF fuel cs pat rep

/-- `str.replace` with sufficient fuel. -/
def pyReplace (s pat rep : List Char) : List Char :=
  pyReplaceF (s.length + 1) s pat rep

/-- Python `str.strip()`: whitespace removed from both ends. -/
def pyStrip (l : List Char) : List Char :=
  ((l.dropWhile Char.isWhitespace).reverse.dropWhile Char.isWhitespace).reverse

/-- `EnhancedLamodaParser._extract_price_from_text` (lines 950-985), for
the default `kz` domain (currency sign `₸`): strip the currency markers,
scan for spaced digit groups, then for bare 3-7 digit runs, returning the
first value inside [100, 10000000], or `none`. -/
def extractPriceClean (text : String) : List Char :=
  pyStrip (pyReplace (pyReplace (pyReplace (pyReplace text.toList
    "₸".toList "".toList) "₸".toList "".toList) "₽".toList "".toList)
    "р.".toList "".toList)

/-- The two scanning loops of `_extract_price_from_text` over the cleaned
text, first match in range wins, else `none`. -/
def extractPriceFromText (text : String) : Option ℚ :=
  if text = "" then none
  else
    match firstPriceIn (scan1 false (extractPriceClean text)) with
    | some p => some p
    | none => firstPriceFallback (scan2 false (extractPriceClean text))

/-- Python `float` on a string of digits and dots: at most one dot, not
just a dot, not empty (anything else raises `ValueError`). -/
def pyFloatDigitsDots (l : List Char) : Option ℚ :=
  match l.splitOn '.' with
  | [d] => if d = [] then none else some ((digitsVal d : ℚ))
  | [a, b] =>
      if a = [] ∧ b = [] then none
      else some ((digitsVal a : ℚ) + (digitsVal b : ℚ) / ((10 : ℚ) ^ b.length))
  | _ => none

/-- The input to `DescriptionAgent._parse_price`: the raw `price` value is
`None`, a number, or a string. -/
inductive PriceInput where
  | pnone
  | pnum (q : ℚ)
  | pstr (s : String)
deriving Repr, DecidableEq

/-- `DescriptionAgent._parse_price` (description_agent.py, lines 415-432):
falsy input gives `None`; a number is returned as a float; a string is
filtered to digits and dots and converted, any conversion error being
caught and becoming `None`. -/
def parsePrice : PriceInput → Option ℚ
  | .pnone => none
  | .pnum q => if q = 0 then none else some q
  | .pstr s =>
      if s = "" then none
      else
        if s.toList.filter (fun c => c.isDigit || c = '.') = [] then none
        else pyFloatDigitsDots (s.toList.filter (fun c => c.isDigit || c = '.'))

/-! ## Category classification

`_smart_determine_category` / `_calculate_category_match_score`
(api/v1/endpoints/outfits/service.py, lines 19-189) and the parser-side
category normalisation `_extract_clothing_type`,
`_normalize_category_for_outfits`, `_smart_extract_category_from_name`
(parser_agent.py, lines 1025-1221). -/

/-- Python `str.lower` restricted to the alphabets this data uses: ASCII
letters and the Cyrillic block (А-Я and Ё). -/
def pyToLower (c : Char) : Char :=
  if 0x41 ≤ c.toNat ∧ c.toNat ≤ 0x5A then Char.ofNat (c.toNat + 32)
  else if 0x410 ≤ c.toNat ∧ c.toNat ≤ 0x42F then Char.ofNat (c.toNat + 32)
  else if c.toNat = 0x401 then Char.ofNat 0x451
  else c

/-- Python substring containment (`needle in hay`). -/
def strHas (hay nd : List Char) : Bool :=
  hay.tails.any (fun t => nd.isPrefixOf t)

/-- Python `str.split()` with no argument: words between whitespace runs.
Structural recursion on a fuel that the wrapper sets to the input length
plus one; every step consumes at least one character. -/
def pySplitWsF : Nat → List Char → List (List Char)
  | 0, _ => []
  | _ + 1, [] => []
  | fuel + 1, c :: cs =>
      if c.isWhitespace then pySplitWsF fuel cs
      else ((c :: cs).takeWhile (fun x => !x.isWhitespace)) ::
        pySplitWsF fuel ((c :: cs).dropWhile (fun x => !x.isWhitespace))

/-- `str.split()` with sufficient fuel. -/
def pySplitWs (l : List Char) : List (List Char) :=
  pySplitWsF (l.length + 1) l

/-- One Hunt-Szymanski row of `difflib.SequenceMatcher.find_longest_match`
(the `j2len` dict, as a dense row): the run length of equal pairs ending
at each position j of b, for the character `aCh` of a. -/
def flmRow (aCh : Char) (b : List Char) (blo bhi : Nat) (prev : List Nat) : List Nat :=
  b.enum.map (fun e =>
    if e.2 = aCh ∧ blo ≤ e.1 ∧ e.1 < bhi then
      (if e.1 = 0 then 0 else prev.getD (e.1 - 1) 0) + 1
    else 0)

/-- Modelled from the Python standard library `difflib.SequenceMatcher`
(an external collaborator of the classifier): `find_longest_match` without
junk handling — the strings compared here are far below the 200-character
autojunk threshold for the b side used by the classifier, and with no junk
the two extension loops of the original cannot extend the maximal run the
dynamic programming already found.  Ties keep the earliest (i, then j). -/
def findLongestMatch (a b : List Char) (alo ahi blo bhi : Nat) : Nat × Nat × Nat :=
  let idxs := (List.range a.length).filter (fun i => alo ≤ i ∧ i < ahi)
  let final := idxs.foldl
    (fun (st : List Nat × (Nat × Nat × Nat)) i =>
      let row := flmRow (a.getD i ' ') b blo bhi st.1
      let best := row.enum.foldl
        (fun (bst : Nat × Nat × Nat) e =>
          if e.2 > bst.2.2 then (i + 1 - e.2, e.1 + 1 - e.2, e.2) else bst) st.2
      (row, best))
    (List.replicate b.length 0, (alo, blo, 0))
  final.2

/-- Modelled from `difflib`: the total size of all matching blocks (the
recursion of `get_matching_blocks`, fuelled; the fuel passed by `...Total`
below always suffices since every recursive call strictly shrinks the two
intervals). -/
def matchBlocksTotalFuel (a b : List Char) : Nat → Nat → Nat → Nat → Nat → Nat
  | _, _, _, _, 0 => 0
  | alo, ahi, blo, bhi, fuel + 1 =>
      let f := findLongestMatch a b alo ahi blo bhi
      if f.2.2 = 0 then 0
      else f.2.2 + matchBlocksTotalFuel a b alo f.1 blo f.2.1 fuel
        + matchBlocksTotalFuel a b (f.1 + f.2.2) ahi (f.2.1 + f.2.2) bhi fuel

/-- Modelled from `difflib.SequenceMatcher.ratio`: twice the matched total
over the combined length (the degenerate empty-empty case, which raises in
Python, is never reached by the classifier and is mapped to 0). -/
def seqMatchScore (a b : List Char) : ℚ :=
  if a.length + b.length = 0 then 0
  else 2 * (matchBlocksTotalFuel a b 0 a.length 0 b.length (a.length + b.length + 1) : ℚ)
    / ((a.length + b.length : Nat) : ℚ)

/-- The `keywords` set for `top` in `SMART_CATEGORY_SYSTEM` (service.py,
lines 20-34).  Set iteration order is irrelevant: the score is a maximum. -/
def topKeywords : List String :=
  ["top", "tops", "tshirt", "t-shirt", "shirt", "blouse", "hoodie", "sweatshirt",
   "sweater", "pullover", "cardigan", "jacket", "blazer", "coat", "vest", "tank",
   "camisole", "crop", "tunic", "dress", "gown", "polo", "jersey", "turtleneck",
   "верх", "топ", "топы", "футболка", "майка", "рубашка", "блузка", "блуза",
   "худи", "свитшот", "свитер", "пуловер", "кардиган", "жакет", "пиджак",
   "куртка", "пальто", "жилет", "платье", "туника", "кроп", "поло", "джерси",
   "водолазка", "гольф", "лонгслив", "кофта", "кофты", "джемпер", "безрукавка",
   "рубашки", "блузы", "одежда для верха", "верхняя одежда", "топы женские",
   "футболки", "майки", "свитера", "кардиганы", "пиджаки", "жакеты"]

/-- The `priority_keywords` for `top` (service.py, lines 35-40). -/
def topPriority : List (String × ℚ) :=
  [("платье", 2), ("dress", 2), ("блузка", 9/5), ("blouse", 9/5),
   ("рубашка", 9/5), ("shirt", 9/5), ("футболка", 9/5), ("t-shirt", 9/5),
   ("свитер", 9/5), ("sweater", 9/5), ("куртка", 9/5), ("jacket", 9/5)]

/-- The `keywords` set for `bottom` (service.py, lines 43-54). -/
def bottomKeywords : List String :=
  ["bottom", "bottoms", "pants", "trousers", "jeans", "shorts", "skirt",
   "leggings", "tights", "capri", "joggers", "chinos", "slacks", "cargo",
   "низ", "брюки", "штаны", "джинсы", "шорты", "юбка", "леггинсы",
   "легинсы", "колготки", "капри", "джоггеры", "чиносы", "слаксы",
   "карго", "треники", "спортивные штаны", "клеш", "скинни", "мом",
   "юбки", "лосины", "одежда для низа", "нижняя часть", "брюки женские",
   "брюки мужские", "джинсы женские", "джинсы мужские", "штаны спортивные"]

/-- The `priority_keywords` for `bottom` (service.py, lines 55-59). -/
def bottomPriority : List (String × ℚ) :=
  [("джинсы", 2), ("jeans", 2), ("брюки", 9/5), ("pants", 9/5),
   ("юбка", 9/5), ("skirt", 9/5), ("шорты", 9/5), ("shorts", 9/5),
   ("леггинсы", 9/5), ("leggings", 9/5)]

/-- The `keywords` set for `footwear` (service.py, lines 62-75). -/
def footwearKeywords : List String :=
  ["footwear", "shoes", "sneakers", "boots", "sandals", "flats", "heels",
   "pumps", "loafers", "oxfords", "trainers", "athletics", "slippers",
   "moccasins", "espadrilles", "wedges", "stilettos", "clogs", "flip-flops",
   "обувь", "туфли", "кроссовки", "ботинки", "сандалии", "балетки",
   "каблуки", "лодочки", "лоферы", "оксфорды", "кеды", "тапочки",
   "мокасины", "эспадрильи", "слипоны", "угги", "сапоги", "ботильоны",
   "босоножки", "вьетнамки", "шлепанцы", "кроксы", "конверсы", "найки",
   "спортивная обувь", "повседневная обувь", "женская обувь", "мужская обувь",
   "обувь на каблуке", "обувь без каблука", "летняя обувь", "зимняя обувь"]

/-- The `priority_keywords` for `footwear` (service.py, lines 76-80). -/
def footwearPriority : List (String × ℚ) :=
  [("кроссовки", 2), ("sneakers", 2), ("туфли", 9/5), ("shoes", 9/5),
   ("ботинки", 9/5), ("boots", 9/5), ("сандалии", 9/5), ("sandals", 9/5),
   ("балетки", 9/5), ("flats", 9/5), ("каблуки", 9/5), ("heels", 9/5)]

/-- The `keywords` set for `accessory` (service.py, lines 83-96). -/
def accessoryKeywords : List String :=
  ["accessories", "accessory", "bag", "purse", "handbag", "backpack",
   "belt", "hat", "cap", "scarf", "gloves", "sunglasses", "watch",
   "jewelry", "necklace", "bracelet", "earrings", "ring", "wallet",
   "аксессуары", "аксессуар", "сумка", "рюкзак", "ремень", "пояс",
   "шляпа", "кепка", "шарф", "перчатки", "очки", "часы", "украшения",
   "колье", "браслет", "серьги", "кольцо", "бижутерия", "кошелек",
   "портмоне", "клатч", "тоут", "кросс-боди", "месенжер", "шоппер",
   "платок", "варежки", "митенки", "бейсболка", "панама", "берет",
   "солнцезащитные очки", "сумки женские", "рюкзаки", "аксессуары женские"]

/-- The `priority_keywords` for `accessory` (service.py, lines 97-101). -/
def accessoryPriority : List (String × ℚ) :=
  [("сумка", 2), ("bag", 2), ("рюкзак", 9/5), ("backpack", 9/5),
   ("часы", 9/5), ("watch", 9/5), ("очки", 9/5), ("sunglasses", 9/5),
   ("ремень", 9/5), ("belt", 9/5), ("украшения", 9/5), ("jewelry", 9/5)]

/-- The `keywords` set for `fragrance` (service.py, lines 104-116). -/
def fragranceKeywords : List String :=
  ["fragrance", "fragrances", "perfume", "cologne", "scent", "parfum",
   "eau de toilette", "eau de parfum", "aftershave", "body spray",
   "deodorant", "antiperspirant", "mist", "essence", "elixir",
   "парфюм", "духи", "одеколон", "аромат", "парфюмерия", "туалетная вода",
   "парфюмерная вода", "после бритья", "спрей для тела", "дезодорант",
   "антиперспирант", "мист", "эссенция", "эликсир", "благовония",
   "парфюмированная вода", "ароматы", "женская парфюмерия", "мужская парфюмерия",
   "унисекс парфюм", "нишевая парфюмерия", "селективная парфюмерия"]

/-- The `priority_keywords` for `fragrance` (service.py, lines 117-120). -/
def fragrancePriority : List (String × ℚ) :=
  [("духи", 2), ("perfume", 2), ("парфюм", 9/5), ("fragrance", 9/5),
   ("одеколон", 9/5), ("cologne", 9/5), ("туалетная вода", 9/5),
   ("eau de toilette", 9/5)]

/-- `SMART_CATEGORY_SYSTEM` in its dict insertion order. -/
def smartCategorySystem : List (String × List (String × ℚ) × List String) :=
  [("top", topPriority, topKeywords),
   ("bottom", bottomPriority, bottomKeywords),
   ("footwear", footwearPriority, footwearKeywords),
   ("accessory", accessoryPriority, accessoryKeywords),
   ("fragrance", fragrancePriority, fragranceKeywords)]

/-- The fuzzy clause of `_calculate_category_match_score` (lines 149-155):
the best `similarity * 0.8` over the words of the text, for words of
length at least 4 whose similarity to the keyword exceeds 0.8. -/
def fuzzyBest (kwl : List Char) (words : List (List Char)) (mx : ℚ) : ℚ :=
  words.foldl
    (fun acc w =>
      if 4 ≤ w.length then
        if 4/5 < seqMatchScore kwl w then max acc (seqMatchScore kwl w * (4/5))
        else acc
      else acc) mx

/-- `_calculate_category_match_score` (service.py, lines 124-157): the
maximum over priority-keyword hits (their weight), plain keyword substring
hits (1.5 for keywords longer than 6 characters, else 1.0), and fuzzy hits
(`similarity * 0.8` for keywords of length at least 5, accepted above a
0.8 similarity); an exact keyword hit skips that keyword's fuzzy clause. -/
def calculateCategoryMatchScore (item_text : String)
    (priority : List (String × ℚ)) (keywords : List String) : ℚ :=
  if item_text = "" then 0
  else
    let itl := item_text.toList.map pyToLower
    let score1 := priority.foldl
      (fun mx pw =>
        if strHas itl (pw.1.toList.map pyToLower) then max mx pw.2 else mx) 0
    keywords.foldl
      (fun mx kw =>
        let kwl := kw.toList.map pyToLower
        if strHas itl kwl then max mx (if 6 < kwl.length then 3/2 else 1)
        else if 5 ≤ kwl.length then fuzzyBest kwl (pySplitWs itl) mx
        else mx) score1

/-- The text assembled by `_smart_determine_category` (lines 163-174):
name, category, clothing type, and the description truncated to 200
characters, each included when truthy, joined by single spaces. -/
def itemCombinedText (item : CItem) : String :=
  let parts :=
    (if item.name ≠ "" then [item.name] else [])
      ++ (match item.category with
          | some c => if c ≠ "" then [c] else []
          | none => [])
      ++ (match item.clothing_type with
          | some c => if c ≠ "" then [c] else []
          | none => [])
      ++ (match item.description with
          | some d => if d ≠ "" then [(d.toList.take 200).asString] else []
          | none => [])
  String.intercalate " " parts

/-- The score of one category of `SMART_CATEGORY_SYSTEM` on an item. -/
def categoryScore (item : CItem) (entry : String × List (String × ℚ) × List String) : ℚ :=
  calculateCategoryMatchScore (itemCombinedText item) entry.2.1 entry.2.2

/-- Python `max(..., key=...)` over the score dict: the first entry with
the maximal score, in insertion order. -/
def pyMaxByScore (item : CItem) :
    List (String × List (String × ℚ) × List String) → (String × ℚ) → String × ℚ
  | [], best => best
  | e :: rest, best =>
      if categoryScore item e > best.2 then pyMaxByScore item rest (e.1, categoryScore item e)
      else pyMaxByScore item rest best

/-- The argmax seed and fold of `_smart_determine_category`: Python `max`
starts from the first dict entry (`top`) and scans the rest in insertion
order. -/
def smartBest (item : CItem) : String × ℚ :=
  pyMaxByScore item
    [("bottom", bottomPriority, bottomKeywords),
     ("footwear", footwearPriority, footwearKeywords),
     ("accessory", accessoryPriority, accessoryKeywords),
     ("fragrance", fragrancePriority, fragranceKeywords)]
    ("top", categoryScore item ("top", topPriority, topKeywords))

/-- `_smart_determine_category` (service.py, lines 159-189): score all five
categories, take the argmax, and return `None` when the best score is
below 0.3. -/
def smartDetermineCategory (item : CItem) : Option String :=
  if (smartBest item).2 < 3/10 then none else some (smartBest item).1

/-- The keyword table of `EnhancedLamodaParser._extract_clothing_type`
(parser_agent.py, lines 1033-1075), in dict insertion order. -/
def clothingPatterns : List (String × List String) :=
  [("top",
    ["футболка", "футболки", "t-shirt", "tshirt", "майка", "майки",
     "рубашка", "рубашки", "блузка", "блузки", "блуза", "сорочка", "shirt",
     "худи", "толстовка", "толстовки", "hoodie", "свитшот", "свитшоты",
     "свитер", "свитеры", "джемпер", "джемперы", "пуловер", "пуловеры",
     "кардиган", "кардиганы",
     "куртка", "куртки", "жакет", "жакеты", "пиджак", "пиджаки", "бомбер",
     "ветровка",
     "пальто", "шуба", "шубы", "плащ", "плащи", "тренч", "парка", "парки",
     "платье", "платья", "сарафан", "сарафаны", "dress", "кофта", "кофты",
     "лонгслив", "лонгсливы", "longsleeve", "поло", "polo",
     "sweater", "jacket", "coat", "blouse"]),
   ("bottom",
    ["брюки", "штаны", "леггинсы", "лосины", "pants", "trousers",
     "джинсы", "jeans", "denim", "шорты", "shorts",
     "юбка", "юбки", "skirt", "капри", "легинсы"]),
   ("footwear",
    ["кроссовки", "ботинки", "туфли", "сапоги", "босоножки", "сандалии",
     "кеды", "мокасины", "лоферы", "обувь", "shoes", "sneakers", "boots",
     "балетки", "слипоны", "угги"]),
   ("accessory",
    ["сумка", "сумки", "рюкзак", "рюкзаки", "ремень", "ремни", "шарф",
     "шарфы",
     "платок", "платки", "очки", "часы", "украшения", "кольцо", "серьги",
     "браслет", "цепочка", "кулон", "перчатки", "варежки", "шапка", "шапки",
     "кепка", "кепки", "бейсболка", "панама", "берет", "bag", "watch"]),
   ("fragrance",
    ["духи", "парфюм", "туалетная вода", "одеколон", "аромат", "fragrance",
     "perfume", "eau de toilette", "eau de parfum", "дезодорант",
     "парфюмерия",
     "масло эфирное", "эфирное масло", "спрей ароматический",
     "парфюмерная вода"])]

/-- First keyword-table hit: the first category whose keyword list has a
substring hit in the text, scanning categories and keywords in order. -/
def firstPatternHit (tl : List Char) : List (String × List String) → Option String
  | [] => none
  | (cat, kws) :: rest =>
      if kws.any (fun kw => strHas tl kw.toList) then some cat
      else firstPatternHit tl rest

/-- `EnhancedLamodaParser._extract_clothing_type` (lines 1025-1091): first
keyword hit over the five categories, then the gender-context fallback
(`мужск`/`женск`/`детск` plus `верх`/`топ` or `низ`/`bottom`). -/
def extractClothingType (name : String) : Option String :=
  if name = "" then none
  else
    let nl := name.toList.map pyToLower
    match firstPatternHit nl clothingPatterns with
    | some cat => some cat
    | none =>
        if ["мужск", "женск", "детск"].any (fun w => strHas nl w.toList) then
          if ["верх", "топ"].any (fun w => strHas nl w.toList) then some "top"
          else if ["низ", "bottom"].any (fun w => strHas nl w.toList) then some "bottom"
          else none
        else none

/-- The keyword table of `_smart_extract_category_from_name`
(parser_agent.py, lines 1184-1213). -/
def smartNameKeywords : List (String × List String) :=
  [("top",
    ["футболка", "майка", "рубашка", "блузка", "блуза", "платье",
     "худи", "толстовка", "свитшот", "свитер", "джемпер", "пуловер",
     "куртка", "жакет", "пиджак", "пальто", "плащ", "кофта",
     "лонгслив", "лонгсливы", "поло",
     "t-shirt", "tshirt", "shirt", "blouse", "dress", "hoodie",
     "sweater", "jacket", "coat", "cardigan", "longsleeve", "polo"]),
   ("bottom",
    ["брюки", "штаны", "джинсы", "шорты", "юбка", "леггинсы",
     "лосины", "капри", "pants", "jeans", "shorts", "skirt",
     "trousers", "leggings"]),
   ("footwear",
    ["кроссовки", "ботинки", "туфли", "сапоги", "босоножки",
     "сандалии", "балетки", "кеды", "мокасины", "обувь",
     "sneakers", "boots", "shoes", "sandals", "flats"]),
   ("accessory",
    ["сумка", "рюкзак", "ремень", "часы", "очки", "шарф",
     "платок", "перчатки", "шапка", "кепка", "украшения",
     "bag", "backpack", "belt", "watch", "glasses", "scarf"]),
   ("fragrance",
    ["духи", "парфюм", "туалетная вода", "одеколон", "аромат",
     "масло эфирное", "эфирное", "спрей ароматический", "парфюмерная вода",
     "perfume", "fragrance", "cologne", "eau de toilette", "essential oil"])]

/-- `_smart_extract_category_from_name` (parser_agent.py, lines
1176-1221): first keyword hit over the five categories, else `None`. -/
def smartExtractCategoryFromName (name : String) : Option String :=
  if name = "" then none
  else firstPatternHit (name.toList.map pyToLower) smartNameKeywords

/-- The `old_to_new_mapping` of `_normalize_category_for_outfits`
(parser_agent.py, lines 1108-1116); the lookup default keeps the input. -/
def oldToNewMapping : List (String × String) :=
  [("tshirt", "top"), ("shirt", "top"), ("hoodie", "top"), ("sweater", "top"),
   ("jacket", "top"), ("coat", "top"), ("dress", "top"),
   ("pants", "bottom"), ("jeans", "bottom"), ("shorts", "bottom"),
   ("skirt", "bottom"),
   ("footwear", "footwear"), ("accessories", "accessory"),
   ("fragrances", "fragrance")]

/-- The `category_mapping` of `_normalize_category_for_outfits`
(parser_agent.py, lines 1128-1167). -/
def categoryMapping : List (String × String) :=
  [("tops", "top"), ("верх", "top"), ("футболка", "top"), ("майка", "top"),
   ("рубашка", "top"), ("блузка", "top"), ("блуза", "top"), ("shirt", "top"),
   ("толстовка", "top"), ("худи", "top"), ("свитшот", "top"), ("hoodie", "top"),
   ("свитер", "top"), ("джемпер", "top"), ("пуловер", "top"), ("sweater", "top"),
   ("куртка", "top"), ("жакет", "top"), ("пиджак", "top"), ("jacket", "top"),
   ("пальто", "top"), ("плащ", "top"), ("coat", "top"),
   ("платье", "top"), ("сарафан", "top"), ("dress", "top"),
   ("кофта", "top"), ("кофты", "top"), ("джерси", "top"), ("tshirt", "top"),
   ("bottoms", "bottom"), ("низ", "bottom"), ("брюки", "bottom"),
   ("штаны", "bottom"),
   ("леггинсы", "bottom"), ("легинсы", "bottom"), ("pants", "bottom"),
   ("trousers", "bottom"),
   ("джинсы", "bottom"), ("jeans", "bottom"), ("denim", "bottom"),
   ("шорты", "bottom"), ("shorts", "bottom"),
   ("юбка", "bottom"), ("юбки", "bottom"), ("skirt", "bottom"),
   ("лосины", "bottom"), ("капри", "bottom"),
   ("обувь", "footwear"), ("shoes", "footwear"), ("кроссовки", "footwear"),
   ("ботинки", "footwear"), ("туфли", "footwear"), ("сапоги", "footwear"),
   ("босоножки", "footwear"), ("сандалии", "footwear"), ("балетки", "footwear"),
   ("кеды", "footwear"), ("слипоны", "footwear"), ("мокасины", "footwear"),
   ("boots", "footwear"), ("sneakers", "footwear"), ("sandals", "footwear"),
   ("аксессуары", "accessory"), ("accessories", "accessory"),
   ("сумка", "accessory"),
   ("сумки", "accessory"), ("рюкзак", "accessory"), ("рюкзаки", "accessory"),
   ("ремень", "accessory"), ("ремни", "accessory"), ("часы", "accessory"),
   ("очки", "accessory"), ("украшения", "accessory"), ("кольцо", "accessory"),
   ("серьги", "accessory"), ("браслет", "accessory"), ("шарф", "accessory"),
   ("платок", "accessory"), ("перчатки", "accessory"), ("шапка", "accessory"),
   ("bag", "accessory"), ("watch", "accessory"), ("glasses", "accessory"),
   ("духи", "fragrance"), ("парфюм", "fragrance"), ("аромат", "fragrance"),
   ("туалетная вода", "fragrance"), ("одеколон", "fragrance"),
   ("парфюмерия", "fragrance"),
   ("fragrance", "fragrance"), ("perfume", "fragrance"),
   ("cologne", "fragrance")]

/-- Association-list lookup (Python `dict.get`). -/
def dictGet (kvs : List (String × String)) (k : String) : Option String :=
  (kvs.find? (fun e => e.1 == k)).map (·.2)

/-- `EnhancedLamodaParser._normalize_category_for_outfits` (parser_agent.py,
lines 1093-1174): prefer the already detected clothing type (mapped
through the legacy table, default keeping it), else map the raw category
label, else detect from the name — and fall back to the literal
`accessory` when nothing matched. -/
def normalizeCategoryForOutfits (category clothing_type : Option String)
    (name : String) : String :=
  if truthyS clothing_type then
    let ct := clothing_type.getD ""
    (dictGet oldToNewMapping ct).getD ct
  else
    let viaCategory : Option String :=
      if truthyS category then
        let cl := ((category.getD "").toList.map pyToLower).asString
        if cl ∈ ["top", "bottom", "footwear", "accessory", "fragrance"] then some cl
        else dictGet categoryMapping cl
      else none
    match viaCategory with
    | some c => c
    | none => (smartExtractCategoryFromName name).getD "accessory"

/-! ## Structured-data extraction (`_parse_product_from_json`,
parser_agent.py, lines 531-707) -/

/-- A Python/JSON value as held in the scraped payload dicts. -/
inductive PyVal where
  | vnull
  | vbool (b : Bool)
  | vnum (q : ℚ)
  | vstr (s : String)
  | varr (xs : List PyVal)
  | vobj (kvs : List (String × PyVal))
deriving Repr

/-- Python truthiness of such a value. -/
def pyTruthyV : PyVal → Bool
  | .vnull => false
  | .vbool b => b
  | .vnum q => q ≠ 0
  | .vstr s => s ≠ ""
  | .varr xs => !xs.isEmpty
  | .vobj kvs => !kvs.isEmpty

/-- Dict lookup (`obj[key]` / `key in obj`; `json.loads` keys are unique). -/
def objGet (kvs : List (String × PyVal)) (k : String) : Option PyVal :=
  (kvs.find? (fun e => e.1 == k)).map (·.2)

/-- `obj.get(key, default)`. -/
def objGetD (kvs : List (String × PyVal)) (k : String) (d : PyVal) : PyVal :=
  (objGet kvs k).getD d

/-- The image filename extensions accepted by the extractor. -/
def imageExts : List String := [".jpg", ".jpeg", ".png", ".webp"]

/-- `any(ext in s.lower() for ext in [...])`. -/
def looksLikeImage (s : String) : Bool :=
  imageExts.any (fun e => strHas (s.toList.map pyToLower) e.toList)

/-- The inner `normalize_image_url` of `_parse_product_from_json`
(parser_agent.py, lines 603-634): only nonempty strings survive;
protocol-relative and root-relative urls become absolute CDN urls; only
Lamoda image urls are kept; a raw CDN path is rewritten to the fixed
`img600x866` variant. -/
def normalizeImageUrl : PyVal → Option String
  | .vstr s0 =>
      if s0 = "" then none
      else
        let s := pyStrip s0.toList
        if s = [] then none
        else
          let full :=
            if "//".toList.isPrefixOf s then "https:".toList ++ s
            else if "/".toList.isPrefixOf s then "https://a.lmcdn.ru".toList ++ s
            else s
          if (strHas full "lmcdn.ru".toList || strHas full "lamoda".toList)
              && looksLikeImage full.asString then
            if ¬ strHas full "/img600x866/".toList
                ∧ strHas full "a.lmcdn.ru".toList then
              let path_part := pyReplace full "https://a.lmcdn.ru/".toList []
              if path_part ≠ [] ∧ ¬ "img600x866/".toList.isPrefixOf path_part then
                some ("https://a.lmcdn.ru/img600x866/" ++ path_part.asString)
              else some full.asString
            else some full.asString
          else none
  | _ => none

/-- The priority url-carrying keys of the recursive image walk (line 656). -/
def priorityKeys : List String := ["url", "src", "href", "path", "image_url"]

mutual
/-- Structural size of a scraped value (used as the walk's fuel). -/
def pySize : PyVal → Nat
  | .vnull => 1
  | .vbool _ => 1
  | .vnum _ => 1
  | .vstr _ => 1
  | .varr xs => 1 + pySizeL xs
  | .vobj kvs => 1 + pySizeO kvs
/-- Structural size of an array of scraped values. -/
def pySizeL : List PyVal → Nat
  | [] => 0
  | x :: xs => 1 + pySize x + pySizeL xs
/-- Structural size of a dict of scraped values. -/
def pySizeO : List (String × PyVal) → Nat
  | [] => 0
  | e :: xs => 1 + pySize e.2 + pySizeO xs
end

/-- The inner `walk_and_collect` of `_parse_product_from_json`
(parser_agent.py, lines 636-664): bounded recursive image collection —
stop at 8, collect normalised image-looking strings once each, walk
arrays elementwise, walk dicts priority-keys-first.  Structural
recursion on a fuel bounding the nesting depth; the wrapper passes the
structural size of the value, which always suffices since every recursive
call descends into a strict subvalue. -/
def walkCollectF : Nat → List String → PyVal → List String
  | 0, st, _ => st
  | fuel + 1, st, v =>
      if st.length ≥ 8 then st
      else
        match v with
        | .vnull => st
        | .vbool _ => st
        | .vnum _ => st
        | .vstr s =>
            if looksLikeImage s then
              match normalizeImageUrl (.vstr s) with
              | some n => if st.contains n then st else st ++ [n]
              | none => st
            else st
        | .varr xs => xs.foldl (fun acc x => walkCollectF fuel acc x) st
        | .vobj kvs =>
            let st1 := priorityKeys.foldl
              (fun acc k =>
                if acc.length < 8 then
                  match kvs.find? (fun e => e.1 == k) with
                  | some e => walkCollectF fuel acc e.2
                  | none => acc
                else acc) st
            kvs.foldl
              (fun acc e =>
                if ¬ priorityKeys.contains e.1 ∧ acc.length < 8 then
                  walkCollectF fuel acc e.2
                else acc) st1

/-- The walk with sufficient fuel: the recursion depth is bounded by the
structural size of the value. -/
def walkCollect (st : List String) (v : PyVal) : List String :=
  walkCollectF (pySize v) st v

/-- The fields the image walk is run over (lines 667-672), in order. -/
def imageFields : List String :=
  ["image", "images", "photo", "photos", "picture", "pictures",
   "main_image", "preview_image", "thumb", "thumbs",
   "product_image", "product_images", "media", "assets",
   "thumbnail", "gallery"]

/-- Zero-padding to four digits (`f"JSON{index+1:04d}"`). -/
def pad4 (n : Nat) : String :=
  if n < 10 then "000" ++ toString n
  else if n < 100 then "00" ++ toString n
  else if n < 1000 then "0" ++ toString n
  else toString n

/-- Python `float(s)` on scraped strings, restricted to the plain decimal
forms present in this data (optional surrounding whitespace, digits with
at most one dot); anything else is a `ValueError`. -/
def pyFloatStr (s : String) : Option ℚ :=
  let t := pyStrip s.toList
  if t = [] then none
  else if t.all (fun c => c.isDigit || c = '.') then pyFloatDigitsDots t
  else none

/-- Python `str()` of a scraped value, as used only to splice `seo_tail`
into a product url (no claim depends on this text). -/
def pyStrOf : PyVal → String
  | .vnull => "None"
  | .vbool b => if b then "True" else "False"
  | .vnum q => toString q.num ++ (if q.den = 1 then "" else "/" ++ toString q.den)
  | .vstr s => s
  | .varr _ => "list"
  | .vobj _ => "dict"

/-- The `product_data` dict assembled by `_parse_product_from_json`
(the fields a later stage reads; `description`, `color`, `sizes`, `style`,
`rating`, `reviews_count` stay at their initial `None`/empty values, and
`category`/`clothing_type` are filled only by `_convert_to_parsed_product`). -/
structure ProductData where
  sku : PyVal
  name : PyVal
  brand : PyVal
  price : PyVal
  old_price : PyVal
  url : String
  image_url : String
  image_urls : List String
deriving Repr

/-- The thumbnail block of `_parse_product_from_json` (lines 678-683): a
truthy thumbnail is normalised and, when new, inserted at the front —
without any cap check. -/
def thumbnailStep (item : List (String × PyVal)) (found : List String) : List String :=
  let thumbnail := objGetD item "thumbnail" (.vstr "")
  if pyTruthyV thumbnail then
    match normalizeImageUrl thumbnail with
    | some n => if found.contains n then found else n :: found
    | none => found
  else found

/-- The gallery block of `_parse_product_from_json` (lines 686-693):
normalise and append new urls while under the cap of 8. -/
def galleryStep (item : List (String × PyVal)) (found : List String) : List String :=
  match objGetD item "gallery" (.varr []) with
  | .varr gallery =>
      gallery.foldl
        (fun acc g =>
          if acc.length ≥ 8 then acc
          else match normalizeImageUrl g with
            | some n => if acc.contains n then acc else acc ++ [n]
            | none => acc) found
  | _ => found

/-- The image-field walk loop of `_parse_product_from_json` (lines
674-676). -/
def imageFieldsStep (item : List (String × PyVal)) : List String :=
  imageFields.foldl
    (fun acc f =>
      match objGet item f with
      | some v => if acc.length < 8 then walkCollect acc v else acc
      | none => acc) []

/-- The url-resolution block of `_parse_product_from_json` (lines
582-598); `none` is a raised `AttributeError` (non-string `url` or, when
the url must be built, non-string `sku`), which the enclosing `except`
turns into a `None` result for the whole candidate. -/
def resolveUrl (item : List (String × PyVal)) (sku : PyVal) : Option String :=
  let step1 : Option String :=
    match objGet item "url" with
    | some v => if pyTruthyV v then some "" else none
    | none => none
  match objGet item "url", step1 with
  | some (.vstr s), some _ =>
      if "/".toList.isPrefixOf s.toList then some ("https://www.lamoda.kz" ++ s)
      else if "http".toList.isPrefixOf s.toList then some s
      else buildUrlFromSku item sku
  | some _, some _ => none
  | _, _ => buildUrlFromSku item sku
where
  /-- Lines 591-597: build the url from the sku and `seo_tail`. -/
  buildUrlFromSku (item : List (String × PyVal)) (sku : PyVal) : Option String :=
    if pyTruthyV sku then
      match sku with
      | .vstr s =>
          let seo_tail := objGetD item "seo_tail" (.vstr "")
          if pyTruthyV seo_tail then
            some ("https://www.lamoda.kz/p/" ++ (s.toList.map pyToLower).asString
              ++ "/" ++ pyStrOf seo_tail ++ "/")
          else
            some ("https://www.lamoda.kz/p/" ++ (s.toList.map pyToLower).asString ++ "/")
      | _ => none
    else some ""

/-- `EnhancedLamodaParser._parse_product_from_json` (parser_agent.py,
lines 531-707): extract sku/name/brand/prices/url, collect up to the
image cap by the recursive walk, then the thumbnail and gallery blocks;
`none` is either a raised-and-caught exception or the final
missing-required-field gate (lines 700-701). -/
def parseProductFromJson (item : List (String × PyVal)) (index : Nat) :
    Option ProductData :=
  let sku := objGetD item "sku" (.vstr ("JSON" ++ pad4 (index + 1)))
  let name := objGetD item "name" (.vstr "")
  let brand :=
    match objGet item "brand" with
    | some (.vobj o) => objGetD o "name" (.vstr "Unknown")
    | some v => v
    | none => .vstr "Unknown"
  let price0 := objGetD item "price_amount" (objGetD item "price" (.vnum 0))
  let price :=
    match price0 with
    | .vstr s => match pyFloatStr s with | some q => PyVal.vnum q | none => PyVal.vnum 0
    | v => v
  let old0 := objGetD item "old_price_amount" (objGetD item "old_price" .vnull)
  let old_price :=
    if pyTruthyV old0 then
      match old0 with
      | .vstr s => match pyFloatStr s with | some q => PyVal.vnum q | none => PyVal.vnull
      | v => v
    else old0
  match resolveUrl item sku with
  | none => none
  | some url =>
      let found := galleryStep item (thumbnailStep item (imageFieldsStep item))
      if pyTruthyV sku && pyTruthyV name && pyTruthyV price then
        some { sku := sku, name := name, brand := brand, price := price
               old_price := old_price, url := url
               image_url := found.headD "", image_urls := found }
      else none

/-- Python `float(v)` on an arbitrary value: numbers and booleans convert,
plain decimal strings parse, everything else raises. -/
def pyFloatOfVal : PyVal → Option ℚ
  | .vnum q => some q
  | .vbool b => some (if b then 1 else 0)
  | .vstr s => pyFloatStr s
  | _ => none

/-- `ParsedProduct` (parser_agent.py, lines 49-71), the fields set by
`_convert_to_parsed_product`. -/
structure ParsedLite where
  sku : PyVal
  name : String
  brand : PyVal
  price : ℚ
  old_price : Option ℚ
  url : String
  image_url : String
  image_urls : List String
  category : String
  clothing_type : String
  parse_quality : ℚ
deriving Repr

/-- `EnhancedLamodaParser._convert_to_parsed_product` (parser_agent.py,
lines 254-297): require truthy name/price/sku, derive the normalised
category from the name, convert the prices (a conversion error on a
non-numeric value is caught and yields `None`). -/
def convertToParsedProduct (pd : ProductData) (quality : ℚ) : Option ParsedLite :=
  if pyTruthyV pd.name && pyTruthyV pd.price && pyTruthyV pd.sku then
    match pd.name with
    | .vstr nm =>
        let normalized := normalizeCategoryForOutfits none (extractClothingType nm) nm
        match (if pyTruthyV pd.price then pyFloatOfVal pd.price else some 0) with
        | none => none
        | some priceQ =>
            match (if pyTruthyV pd.old_price then (pyFloatOfVal pd.old_price).map some
                   else some none) with
            | none => none
            | some oldQ =>
                some { sku := pd.sku, name := nm, brand := pd.brand
                       price := priceQ, old_price := oldQ, url := pd.url
                       image_url := pd.image_url, image_urls := pd.image_urls
                       category := normalized, clothing_type := normalized
                       parse_quality := quality }
    | _ => none
  else none

/-- The strategy chain of `EnhancedLamodaParser.parse_catalog`
(parser_agent.py, lines 199-226): the structured-data stage converts the
first `limit` extracted json candidates (a non-dict candidate raises
inside `_parse_product_from_json` and is dropped); only when that stage
yields nothing is the DOM stage used, whose per-element outcomes (from
`_parse_product_from_element` + conversion, a BeautifulSoup computation
abstracted here as its result) are taken.  There is no further stage: the
free-text strategy `_parse_from_text_patterns` (lines 426-480) is defined
but never invoked by `parse_catalog`.  This is the structured-data
stage. -/
def fromJsonProducts (jsonItems : List PyVal) (limit : Nat) : List ParsedLite :=
  (jsonItems.take limit).enum.filterMap
    (fun e =>
      match e.2 with
      | .vobj kvs => (parseProductFromJson kvs e.1).bind
          (fun pd => convertToParsedProduct pd (9/10))
      | _ => none)

/-- The stage composition of `parse_catalog` continued: structured-data
first, DOM only when it yielded nothing, final `[:limit]` slice. -/
def parseCatalogProducts (jsonItems : List PyVal)
    (htmlCandidates : List (Option ParsedLite)) (limit : Nat) : List ParsedLite :=
  let products := if (fromJsonProducts jsonItems limit).isEmpty
                  then (htmlCandidates.take limit).reduceOption
                  else fromJsonProducts jsonItems limit
  products.take limit

/-- Follows the claim's words, for comparison (refinement): a three-stage
short-circuit chain in which the free-text stage is attempted exactly when
the structured-data and DOM stages both yield no candidate. -/
def claimedStrategyChain (s1 s2 s3 : List ParsedLite) : List ParsedLite :=
  if !s1.isEmpty then s1 else if !s2.isEmpty then s2 else s3

/-! ## Enrichment fallback (`description_agent.py`) -/

/-- `EnhanceResult` (description_agent.py, lines 32-56), the fields the
no-AI fallback reads or writes. -/
structure EnhanceResultM where
  name : String
  brand : Option String
  color : Option String
  size : Option String
  clothing_type : Option String
  description : Option String
  price : Option ℚ
  category : Option String
  article : Option String
  style : Option String
  collection : Option String
  materials : List String
  quality_score : ℚ
  confidence : ℚ
  enhanced_fields : List String
deriving Repr, DecidableEq

/-- `DescriptionAgent._guess_materials` (lines 454-465). -/
def guessMaterials (clothing_type : Option String) : List String :=
  match clothing_type with
  | some "футболка" => ["хлопок", "эластан"]
  | some "джинсы" => ["деним", "хлопок", "эластан"]
  | some "платье" => ["полиэстер", "эластан"]
  | some "рубашка" => ["хлопок", "полиэстер"]
  | some "куртка" => ["полиэстер", "нylon"]
  | some "свитер" => ["шерсть", "акрил"]
  | _ => ["текстиль"]

/-- `DescriptionAgent._generate_basic_description` (lines 434-452). -/
def generateBasicDescription (r : EnhanceResultM) : String :=
  let parts :=
    (if truthyS r.brand then ["Стильный товар от бренда " ++ r.brand.getD "" ++ "."] else [])
      ++ (if truthyS r.clothing_type then ["Качественный(ая) " ++ r.clothing_type.getD ""] else [])
      ++ (if truthyS r.color then ["в " ++ r.color.getD "" ++ " цвете."] else [])
      ++ (if !r.materials.isEmpty then ["Материал: " ++ String.intercalate ", " r.materials ++ "."] else [])
      ++ ["Отличное качество и современный дизайн."]
  String.intercalate " " parts

/-- `DescriptionAgent._enhance_without_ai` (description_agent.py, lines
308-328): fill an empty description from the template, derive the
collection from the brand, guess materials, and set the fixed no-AI
quality baseline of 6.0 and confidence 6.0 (the 0-10 scale of the
system prompt, lines 232-233). -/
def enhanceWithoutAi (r : EnhanceResultM) : EnhanceResultM :=
  let step1 :=
    if ¬ truthyS r.description then
      { r with description := some (generateBasicDescription r)
               enhanced_fields := ["description"] }
    else { r with enhanced_fields := [] }
  let step2 :=
    if ¬ truthyS step1.collection ∧ truthyS step1.brand then
      { step1 with collection := some (step1.brand.getD "" ++ " Collection")
                   enhanced_fields := step1.enhanced_fields ++ ["collection"] }
    else step1
  { step2 with materials := guessMaterials step2.clothing_type
               quality_score := 6, confidence := 6 }

/-- The `quality_score` written by `_apply_ai_enhancements` (line 300):
`float(ai_data.get('quality_score', 7.0))` — the AI path default. -/
def aiQualityScore (provided : Option ℚ) : ℚ := provided.getD 7

/-- The `article` produced by `DescriptionAgent._process_basic_data`
(line 159): `(raw_data.get('sku') or '').strip() or None` — never the
empty string. -/
def articleFromRaw (sku : Option String) : Option String :=
  if pyStrip (sku.getD "").toList = [] then none
  else some (pyStrip (sku.getD "").toList).asString

/-- The `article` after `DescriptionAgent._finalize_data` (lines 352-354):
generate `ART` plus the upper-cased 8-character md5 prefix (the digest is
an external computation, passed in) when the article is falsy and name and
brand are truthy — never the empty string either way. -/
def finalizeArticle (article : Option String) (name : String)
    (brand : Option String) (digest8 : String) : Option String :=
  if ¬ truthyS article ∧ name ≠ "" ∧ truthyS brand then
    some ("ART" ++ (digest8.toList.map Char.toUpper).asString)
  else article

/-! ## Concrete example inputs used by witnesses and counterexamples -/

/-- The eight distinct CDN image urls of the overflow candidate. -/
def eightImgs : List PyVal :=
  (List.range 8).map
    (fun i => PyVal.vstr ("https://a.lmcdn.ru/img600x866/A/B/img" ++ toString (i + 1) ++ ".jpg"))

/-- A scraped structured-data candidate whose `image` field already holds
8 distinct CDN urls and whose `thumbnail` is a ninth, distinct one. -/
def overflowItem : List (String × PyVal) :=
  [("sku", .vstr "RTL123"), ("name", .vstr "Prod"), ("price", .vnum 500),
   ("image", .varr eightImgs),
   ("thumbnail", .vstr "https://a.lmcdn.ru/img600x866/A/B/thumb.jpg")]

/-- A minimal candidate record: only a name. -/
def bareItem (nm : String) : PerfectItem :=
  { name := nm, brand := none, color := none, size := none,
    clothing_type := none, description := none, price := none,
    category := none, article := none, style := none, image_url := none,
    image_urls := [], variants := [], ai_enhanced := false }

/-- A populated candidate record, as the pipeline produces. -/
def richItem : PerfectItem :=
  { name := "Nike Shirt", brand := some "Nike", color := some "black",
    size := some "M", clothing_type := some "top",
    description := some "A fine shirt", price := some 12990,
    category := some "top", article := some "ART12345678",
    style := some "casual", image_url := some "https://a.lmcdn.ru/img600x866/A/B/i1.jpg",
    image_urls := ["https://a.lmcdn.ru/img600x866/A/B/i1.jpg",
                   "https://a.lmcdn.ru/img600x866/A/B/i2.jpg"],
    variants := [{ size := some "M", color := some "black",
                   sku := some "ART12345678", stock := 10, price := some 12990 },
                 { size := some "L", color := some "black",
                   sku := some "ART12345678_L", stock := 5, price := some 12990 }],
    ai_enhanced := false }

/-- A stored catalog row carrying only a name, for the skipped-result
witness. -/
def plainRow (nm : String) : CItem :=
  { id := 1, name := nm, brand := none, color := none, size := none,
    clothing_type := none, description := none, price := none,
    category := none, article := none, style := none, image_url := none,
    images := [], variants := [] }

/-- An item whose texts contain no category keyword at all. -/
def unknownItem : CItem :=
  { plainRow "xyz" with id := 0 }

/-- A parsed product literal for the strategy-chain counterexample. -/
def textOnlyProduct : ParsedLite :=
  { sku := .vstr "TXTKZ0001", name := "Something", brand := .vstr "Nike",
    price := 5000, old_price := none, url := "", image_url := "",
    image_urls := [], category := "accessory", clothing_type := "accessory",
    parse_quality := 3/10 }

/-- A no-AI enrichment input, as `_process_basic_data` builds it. -/
def basicEnhanceInput : EnhanceResultM :=
  { name := "Nike Shirt", brand := some "Nike", color := none, size := none,
    clothing_type := some "рубашка", description := none, price := some 12990,
    category := some "tops", article := some "SKU1", style := some "casual",
    collection := none, materials := [], quality_score := 0, confidence := 0,
    enhanced_fields := [] }

/-- The number of non-null optional columns of a catalog row (spec
section 3: brand, color, size, clothingType, description, price, category,
article, style, imageUrl). -/
def nonNullCount (it : CItem) : Nat :=
  it.brand.isSome.toNat + it.color.isSome.toNat + it.size.isSome.toNat
    + it.clothing_type.isSome.toNat + it.description.isSome.toNat
    + it.price.isSome.toNat + it.category.isSome.toNat
    + it.article.isSome.toNat + it.style.isSome.toNat
    + it.image_url.isSome.toNat

/-- The product record the JSON extractor actually produces for the
overflow candidate: nine deduplicated urls — one over the documented cap. -/
def overflowPd : ProductData :=
  { sku := .vstr "RTL123", name := .vstr "Prod", brand := .vstr "Unknown",
    price := .vnum 500, old_price := .vnull,
    url := "https://www.lamoda.kz/p/rtl123/",
    image_url := "https://a.lmcdn.ru/img600x866/A/B/thumb.jpg",
    image_urls := "https://a.lmcdn.ru/img600x866/A/B/thumb.jpg"
      :: (List.range 8).map
        (fun i => "https://a.lmcdn.ru/img600x866/A/B/img" ++ toString (i + 1) ++ ".jpg") }

/-! # Theorems -/

/-- Any value the first price loop returns lies inside [100, 10000000]. -/
theorem firstPriceIn_range (ms : List String) (p : ℚ)
    (h : firstPriceIn ms = some p) : 100 ≤ p ∧ p ≤ 10000000 := by
  induction ms with
  | nil => simp [firstPriceIn] at h
  | cons m rest ih =>
      unfold firstPriceIn at h
      split at h
      · split at h
        · obtain rfl : _ = p := Option.some.injEq .. ▸ h
          assumption
        · exact ih h
      · exact ih h

/-- Any value the fallback price loop returns lies inside the range. -/
theorem firstPriceFallback_range (ms : List String) (p : ℚ)
    (h : firstPriceFallback ms = some p) : 100 ≤ p ∧ p ≤ 10000000 := by
  induction ms with
  | nil => simp [firstPriceFallback] at h
  | cons m rest ih =>
      unfold firstPriceFallback at h
      split at h
      · obtain rfl : _ = p := Option.some.injEq .. ▸ h
        assumption
      · exact ih h

/-- C8.  The price parsers: the text parser strips currency and non-digit
characters, accepts only values inside [100, 10000000] (any returned
value lies in that range), and returns `none` instead of raising on
malformed input; in particular the price text `12 990 ₸` parses to
`12990.0` and `abc` parses to `none`, in both the parser agent's text
extractor and the description agent's price parser. -/
theorem price_parser_spec :
    extractPriceFromText "12 990 ₸" = some 12990
    ∧ extractPriceFromText "abc" = none
    ∧ parsePrice (.pstr "12 990 ₸") = some 12990
    ∧ parsePrice (.pstr "abc") = none
    ∧ ∀ t p, extractPriceFromText t = some p → 100 ≤ p ∧ p ≤ 10000000 := by
  refine ⟨by decide, by decide, by decide, by decide, ?_⟩
  intro t p h
  unfold extractPriceFromText at h
  split at h
  · exact absurd h (by simp)
  · split at h
    · rename_i q hq
      obtain rfl : q = p := Option.some.injEq .. ▸ h
      exact firstPriceIn_range _ _ hq
    · exact firstPriceFallback_range _ _ h

/-- C8 witness: the range clause applied at the concrete input. -/
theorem price_parser_spec_witness : 100 ≤ (12990 : ℚ) ∧ (12990 : ℚ) ≤ 10000000 :=
  price_parser_spec.2.2.2.2 "12 990 ₸" 12990 (by decide)

/-- Chunking with sufficient fuel flattens back to the input. -/
theorem chunksOfF_flatten (fuel : Nat) : ∀ (n : Nat) (l : List α),
    l.length < fuel → (chunksOfF fuel (n + 1) l).flatten = l := by
  induction fuel with
  | zero => intro n l h; omega
  | succ fuel ih =>
      intro n l h
      cases l with
      | nil => rfl
      | cons x xs =>
          show (List.take (n + 1) (x :: xs) :: chunksOfF fuel (n + 1) (xs.drop n)).flatten = x :: xs
          rw [List.flatten_cons, ih n (xs.drop n) (by simp at h ⊢; omega)]
          rw [List.take_succ_cons]
          simp [List.take_append_drop]

/-- The chunked batch run equals the per-item map: every candidate yields
exactly one outcome, in order. -/
theorem importResults_eq_map (step : α → Except String ImportResultM)
    (products : List α) :
    importParsedProductsResults step products
      = products.map (processSingleProduct step) := by
  unfold importParsedProductsResults processBatch chunksOf
  have h9 : (9 : Nat) + 1 = 10 := rfl
  rw [← h9, ← List.map_flatten, chunksOfF_flatten (products.length + 1) 9 products (by omega)]

/-- C5.  Partial-failure isolation: a batch of N candidates always
produces exactly N per-item outcomes; an item whose processing raises is
reported with action `error` and success `False`, and every other item's
outcome is its normal processing result — no item-level exception aborts
the chunk or the run. -/
theorem batch_partial_failure (step : α → Except String ImportResultM)
    (ps : List α) (k : Nat) (hk : k < ps.length) :
    (importParsedProductsResults step ps).length = ps.length
    ∧ (∀ e, step (ps.get ⟨k, hk⟩) = .error e →
        (importParsedProductsResults step ps).get
            ⟨k, by rw [importResults_eq_map]; simpa using hk⟩
          = { success := false, item_id := none, action := "error", errors := [e] })
    ∧ (∀ r, step (ps.get ⟨k, hk⟩) = .ok r →
        (importParsedProductsResults step ps).get
            ⟨k, by rw [importResults_eq_map]; simpa using hk⟩ = r) := by
  have hg : (importParsedProductsResults step ps).get
      ⟨k, by rw [importResults_eq_map]; simpa using hk⟩
      = processSingleProduct step (ps.get ⟨k, hk⟩) := by
    rw [List.get_of_eq (importResults_eq_map step ps)]
    simp [List.get_eq_getElem, List.getElem_map]
  refine ⟨?_, ?_, ?_⟩
  · rw [importResults_eq_map]; simp
  · intro e he
    rw [hg]
    unfold processSingleProduct errorResult
    rw [he]
  · intro r hr
    rw [hg]
    unfold processSingleProduct
    rw [hr]

/-- C5 witness: a three-item batch whose middle item raises. -/
theorem batch_partial_failure_witness :
    (importParsedProductsResults
        (fun n => if n = (2 : Nat) then .error "boom"
                  else .ok { success := true, item_id := some n
                             action := "created", errors := [] })
        [1, 2, 3]).length = 3
    ∧ (importParsedProductsResults
        (fun n => if n = (2 : Nat) then .error "boom"
                  else .ok { success := true, item_id := some n
                             action := "created", errors := [] })
        [1, 2, 3]).get ⟨1, by rw [importResults_eq_map]; simp⟩
      = { success := false, item_id := none, action := "error", errors := ["boom"] } := by
  constructor
  · exact (batch_partial_failure _ [1, 2, 3] 1 (by simp)).1
  · exact (batch_partial_failure _ [1, 2, 3] 1 (by simp)).2.1 "boom" (by rfl)

/-- C10.  A resolved candidate whose merge changes nothing yields action
`skipped` with `success = False`; the aggregation then counts that same
item both in `skipped_count` and in `error_count` (which counts all
outcomes with `success = False`), so the per-action counts plus
`error_count` exceed `total_processed`. -/
theorem skipped_counted_as_error (db : DB) (p : PerfectItem) (i : Nat)
    (it : CItem) (hfind : findExistingItem db p = some (i, it))
    (hupd : (updateExistingItem p it).2 = false) :
    (saveToDatabase db p).1.action = "skipped"
    ∧ (saveToDatabase db p).1.success = false
    ∧ importSummaryOfResults [(saveToDatabase db p).1]
        = { imported_count := 0, updated_count := 0, skipped_count := 1,
            error_count := 1, total_processed := 1 }
    ∧ (importSummaryOfResults [(saveToDatabase db p).1]).imported_count
        + (importSummaryOfResults [(saveToDatabase db p).1]).updated_count
        + (importSummaryOfResults [(saveToDatabase db p).1]).skipped_count
        + (importSummaryOfResults [(saveToDatabase db p).1]).error_count
      > (importSummaryOfResults [(saveToDatabase db p).1]).total_processed := by
  have hr : (saveToDatabase db p).1
      = { success := false, item_id := some it.id, action := "skipped"
          errors := [] } := by
    unfold saveToDatabase
    rw [hfind]
    simp [hupd]
  refine ⟨by rw [hr], by rw [hr], ?_, ?_⟩
  · rw [hr]
    rfl
  · rw [hr]
    show 0 + 0 + 1 + 1 > 1
    omega

/-- C10 witness: re-importing a bare candidate over an identical stored
row is skipped and double-counted. -/
theorem skipped_counted_as_error_witness :
    (saveToDatabase { items := [plainRow "A"], next_id := 2 } (bareItem "A")).1.action
      = "skipped"
    ∧ importSummaryOfResults
        [(saveToDatabase { items := [plainRow "A"], next_id := 2 } (bareItem "A")).1]
      = { imported_count := 0, updated_count := 0, skipped_count := 1,
          error_count := 1, total_processed := 1 } := by
  have h := skipped_counted_as_error { items := [plainRow "A"], next_id := 2 }
    (bareItem "A") 0 (plainRow "A") (by decide) (by decide)
  exact ⟨h.1, h.2.2.1⟩

/-- C9 counterexample: the degraded no-AI fallback assigns the fixed
quality baseline 6.0 — not inside [0, 1], and not 0.6. -/
theorem quality_baseline_counterexample :
    (enhanceWithoutAi basicEnhanceInput).quality_score = 6
    ∧ ¬ ((enhanceWithoutAi basicEnhanceInput).quality_score ≤ 1)
    ∧ (enhanceWithoutAi basicEnhanceInput).quality_score ≠ 3/5 := by
  refine ⟨by decide, by decide, ?_⟩
  have h : (enhanceWithoutAi basicEnhanceInput).quality_score = 6 := by decide
  rw [h]
  norm_num

/-- C9 amended: the no-AI fallback assigns the fixed quality baseline 6.0
and confidence 6.0 on the 0-10 scale the agent uses, strictly below the
AI path's default quality of 7.0. -/
theorem no_ai_quality_baseline (r : EnhanceResultM) :
    (enhanceWithoutAi r).quality_score = 6
    ∧ (enhanceWithoutAi r).confidence = 6
    ∧ aiQualityScore none = 7
    ∧ (enhanceWithoutAi r).quality_score < aiQualityScore none := by
  refine ⟨rfl, rfl, rfl, ?_⟩
  show (6 : ℚ) < 7
  norm_num

/-- C6 counterexample: on a page where the structured-data and DOM
strategies yield nothing while the free-text patterns would yield a
product, `parse_catalog` returns nothing — the free-text strategy
(`_parse_from_text_patterns`) is never attempted, although the claimed
three-stage fallback chain would return that product. -/
theorem text_strategy_counterexample :
    parseCatalogProducts [] [] 20 = []
    ∧ claimedStrategyChain [] [] [textOnlyProduct] = [textOnlyProduct]
    ∧ ([] : List ParsedLite) ≠ [textOnlyProduct] := by
  refine ⟨rfl, rfl, by simp⟩

/-- C6 amended: extraction tries structured-data and then DOM-structural
in that order and short-circuits at the first stage yielding at least one
candidate: a nonempty structured-data stage decides the result, making it
independent of the DOM stage, and the DOM stage is used exactly when the
structured-data stage yields nothing.  The free-text strategy is defined
in the source but never attempted. -/
theorem strategy_chain_short_circuit (jsonItems : List PyVal)
    (h1 h2 : List (Option ParsedLite)) (limit : Nat) :
    (fromJsonProducts jsonItems limit ≠ [] →
      parseCatalogProducts jsonItems h1 limit
          = (fromJsonProducts jsonItems limit).take limit
        ∧ parseCatalogProducts jsonItems h1 limit
          = parseCatalogProducts jsonItems h2 limit)
    ∧ (fromJsonProducts jsonItems limit = [] →
        parseCatalogProducts jsonItems h1 limit
          = ((h1.take limit).reduceOption).take limit) := by
  constructor
  · intro hne
    have he : (fromJsonProducts jsonItems limit).isEmpty = false := by
      simpa [List.isEmpty_iff] using hne
    constructor
    · unfold parseCatalogProducts
      rw [he]
      simp
    · unfold parseCatalogProducts
      rw [he]
      simp
  · intro heq
    unfold parseCatalogProducts
    rw [heq]
    simp

/-- C6 witness: with one well-formed structured-data candidate, the
result is independent of the DOM stage. -/
theorem strategy_chain_short_circuit_witness :
    parseCatalogProducts [.vobj overflowItem] [] 20
      = parseCatalogProducts [.vobj overflowItem] [some textOnlyProduct] 20 :=
  ((strategy_chain_short_circuit [.vobj overflowItem]
      [] [some textOnlyProduct] 20).1
    (by
      intro h
      have hlen : (fromJsonProducts [.vobj overflowItem] 20).length = 1 := rfl
      rw [h] at hlen
      simp at hlen)).2

/-- The Python `max(..., key=...)` fold returns a value at least the seed
and at least every scanned entry, and is either the seed or one of the
scanned entries with its own score. -/
theorem pyMaxByScore_spec (item : CItem)
    (l : List (String × List (String × ℚ) × List String)) :
    ∀ best : String × ℚ,
      best.2 ≤ (pyMaxByScore item l best).2
      ∧ (∀ e ∈ l, categoryScore item e ≤ (pyMaxByScore item l best).2)
      ∧ (pyMaxByScore item l best = best
          ∨ ∃ e ∈ l, e.1 = (pyMaxByScore item l best).1
              ∧ categoryScore item e = (pyMaxByScore item l best).2) := by
  induction l with
  | nil =>
      intro best
      exact ⟨le_refl _, by simp, Or.inl rfl⟩
  | cons e rest ih =>
      intro best
      unfold pyMaxByScore
      split
      · rename_i hgt
        obtain ⟨h1, h2, h3⟩ := ih (e.1, categoryScore item e)
        refine ⟨le_trans (le_of_lt hgt) h1, ?_, ?_⟩
        · intro e2 he2
          rcases List.mem_cons.mp he2 with rfl | hm
          · exact h1
          · exact h2 e2 hm
        · rcases h3 with heq | ⟨e2, hm, ha, hb⟩
          · exact Or.inr ⟨e, List.mem_cons_self .., by rw [heq]; exact ⟨rfl, rfl⟩⟩
          · exact Or.inr ⟨e2, List.mem_cons_of_mem _ hm, ha, hb⟩
      · rename_i hle
        obtain ⟨h1, h2, h3⟩ := ih best
        refine ⟨h1, ?_, ?_⟩
        · intro e2 he2
          rcases List.mem_cons.mp he2 with rfl | hm
          · exact le_trans (le_of_not_lt hle) h1
          · exact h2 e2 hm
        · rcases h3 with heq | ⟨e2, hm, ha, hb⟩
          · exact Or.inl heq
          · exact Or.inr ⟨e2, List.mem_cons_of_mem _ hm, ha, hb⟩

set_option maxRecDepth 8000 in
unseal Rat.mul Rat.add Rat.inv in
/-- C4 counterexample: on a text with no category keyword, the scoring
classifier is explicitly undetermined (`None`), but the parser's category
normaliser silently defaults to `accessory`. -/
theorem category_default_counterexample :
    smartDetermineCategory unknownItem = none
    ∧ smartExtractCategoryFromName "xyz" = none
    ∧ normalizeCategoryForOutfits none none "xyz" = "accessory" := by
  refine ⟨by decide, by decide, by decide⟩

/-- C4 amended: the outfit-service classifier computes a match score for
each of the five categories and returns the argmax, explicitly
undetermined (`None`) whenever the maximum score is below 0.3; the
parser-side normaliser `_normalize_category_for_outfits`, however,
defaults to `accessory` when no keyword matches instead of reporting
undetermined. -/
theorem smart_category_argmax (item : CItem) :
    (smartDetermineCategory item = none →
      ∀ e ∈ smartCategorySystem, categoryScore item e < 3/10)
    ∧ (∀ c, smartDetermineCategory item = some c →
        ∃ e ∈ smartCategorySystem, e.1 = c
          ∧ 3/10 ≤ categoryScore item e
          ∧ ∀ e2 ∈ smartCategorySystem, categoryScore item e2 ≤ categoryScore item e)
    ∧ (∀ nm, smartExtractCategoryFromName nm = none →
        normalizeCategoryForOutfits none none nm = "accessory") := by
  obtain ⟨h1, h2, h3⟩ := pyMaxByScore_spec item
    [("bottom", bottomPriority, bottomKeywords),
     ("footwear", footwearPriority, footwearKeywords),
     ("accessory", accessoryPriority, accessoryKeywords),
     ("fragrance", fragrancePriority, fragranceKeywords)]
    ("top", categoryScore item ("top", topPriority, topKeywords))
  have hsb : smartBest item = pyMaxByScore item
    [("bottom", bottomPriority, bottomKeywords),
     ("footwear", footwearPriority, footwearKeywords),
     ("accessory", accessoryPriority, accessoryKeywords),
     ("fragrance", fragrancePriority, fragranceKeywords)]
    ("top", categoryScore item ("top", topPriority, topKeywords)) := rfl
  rw [← hsb] at h1 h2 h3
  have hmem : ∀ e ∈ smartCategorySystem,
      categoryScore item e ≤ (smartBest item).2 := by
    intro e he
    unfold smartCategorySystem at he
    rcases List.mem_cons.mp he with rfl | he2
    · exact h1
    · exact h2 e he2
  refine ⟨?_, ?_, ?_⟩
  · intro hnone e he
    unfold smartDetermineCategory at hnone
    split at hnone
    · rename_i hlt
      exact lt_of_le_of_lt (hmem e he) hlt
    · exact absurd hnone (by simp)
  · intro c hsome
    unfold smartDetermineCategory at hsome
    split at hsome
    · exact absurd hsome (by simp)
    · rename_i hge
      obtain rfl : (smartBest item).1 = c := Option.some.injEq .. ▸ hsome
      have hb : 3/10 ≤ (smartBest item).2 := le_of_not_lt hge
      rcases h3 with heq | ⟨e2, hm, ha, hbscore⟩
      · refine ⟨("top", topPriority, topKeywords), by simp [smartCategorySystem], ?_, ?_, ?_⟩
        · show "top" = (smartBest item).1
          rw [heq]
        · calc (3 : ℚ)/10 ≤ (smartBest item).2 := hb
            _ = categoryScore item ("top", topPriority, topKeywords) := by rw [heq]
        · intro e2 he2
          calc categoryScore item e2 ≤ (smartBest item).2 := hmem e2 he2
            _ = _ := by rw [heq]
      · refine ⟨e2, ?_, ha, ?_, ?_⟩
        · unfold smartCategorySystem
          exact List.mem_cons_of_mem _ hm
        · rw [hbscore]; exact hb
        · intro e3 he3
          rw [hbscore]; exact hmem e3 he3
  · intro nm hnone
    unfold normalizeCategoryForOutfits
    simp [truthyS, hnone]

set_option maxRecDepth 8000 in
unseal Rat.mul Rat.add Rat.inv in
/-- C4 witness: the argmax clause applied at a concrete keyword item. -/
theorem smart_category_argmax_witness :
    ∃ e ∈ smartCategorySystem, e.1 = "accessory"
      ∧ 3/10 ≤ categoryScore (plainRow "belt and bag") e
      ∧ ∀ e2 ∈ smartCategorySystem,
          categoryScore (plainRow "belt and bag") e2
            ≤ categoryScore (plainRow "belt and bag") e :=
  (smart_category_argmax (plainRow "belt and bag")).2.1 "accessory" (by decide)

/-- The image-append loop only appends rows, with the given urls in
order, and touches no other field except a backfill of a falsy primary
image. -/
theorem imagesLoop_spec (base : Nat) : ∀ (l : List (Nat × String)) (it : CItem),
    (imagesLoop base it l).images
        = it.images ++ l.map (fun e => ⟨e.2, base + e.1⟩)
    ∧ (imagesLoop base it l).variants = it.variants
    ∧ (imagesLoop base it l).id = it.id
    ∧ (imagesLoop base it l).name = it.name
    ∧ (imagesLoop base it l).brand = it.brand
    ∧ (imagesLoop base it l).color = it.color
    ∧ (imagesLoop base it l).size = it.size
    ∧ (imagesLoop base it l).clothing_type = it.clothing_type
    ∧ (imagesLoop base it l).description = it.description
    ∧ (imagesLoop base it l).price = it.price
    ∧ (imagesLoop base it l).category = it.category
    ∧ (imagesLoop base it l).article = it.article
    ∧ (imagesLoop base it l).style = it.style
    ∧ (truthyS it.image_url = true → (imagesLoop base it l).image_url = it.image_url)
    ∧ (it.image_url.isSome = true → (imagesLoop base it l).image_url.isSome = true) := by
  intro l
  induction l with
  | nil =>
      intro it
      refine ⟨by simp [imagesLoop], ?_, ?_, ?_, ?_, ?_, ?_, ?_, ?_, ?_, ?_, ?_, ?_, ?_, ?_⟩
      all_goals simp [imagesLoop]
  | cons e rest ih =>
      intro it
      obtain ⟨i1, i2, i3, i4, i5, i6, i7, i8, i9, i10, i11, i12, i13, i14, i15⟩ :=
        ih { it with
              images := it.images ++ [⟨e.2, base + e.1⟩]
              image_url := if truthyS it.image_url then it.image_url else some e.2 }
      refine ⟨?_, ?_, ?_, ?_, ?_, ?_, ?_, ?_, ?_, ?_, ?_, ?_, ?_, ?_, ?_⟩
      · show (imagesLoop base _ rest).images = _
        rw [i1]
        simp
      · exact i2
      · exact i3
      · exact i4
      · exact i5
      · exact i6
      · exact i7
      · exact i8
      · exact i9
      · exact i10
      · exact i11
      · exact i12
      · exact i13
      · intro ht
        show (imagesLoop base _ rest).image_url = it.image_url
        rw [i14 (by simpa [ht] using ht)] <;> simp [ht]
      · intro hs
        apply i15
        by_cases ht : truthyS it.image_url = true
        · simpa [ht] using hs
        · simp [ht]

/-- The image step appends exactly the new urls (those not already
stored), capped at 8, and touches no other field except a backfill of a
falsy primary image. -/
theorem processItemImages_spec (it : CItem) (urls : List String) :
    (processItemImages it urls).images
        = it.images
          ++ ((urls.filter
                (fun u => !((it.images.map (·.image_url)).dedup.contains u))).take 8).enum.map
              (fun e => ⟨e.2, (it.images.map (·.image_url)).dedup.length + e.1⟩)
    ∧ (processItemImages it urls).variants = it.variants
    ∧ (processItemImages it urls).id = it.id
    ∧ (processItemImages it urls).name = it.name
    ∧ (processItemImages it urls).brand = it.brand
    ∧ (processItemImages it urls).color = it.color
    ∧ (processItemImages it urls).size = it.size
    ∧ (processItemImages it urls).clothing_type = it.clothing_type
    ∧ (processItemImages it urls).description = it.description
    ∧ (processItemImages it urls).price = it.price
    ∧ (processItemImages it urls).category = it.category
    ∧ (processItemImages it urls).article = it.article
    ∧ (processItemImages it urls).style = it.style
    ∧ (truthyS it.image_url = true → (processItemImages it urls).image_url = it.image_url)
    ∧ (it.image_url.isSome = true → (processItemImages it urls).image_url.isSome = true) := by
  unfold processItemImages
  split
  · rename_i hnil
    subst hnil
    simp
  · exact imagesLoop_spec _ _ it

/-- The urls of the appended image rows are the new urls themselves. -/
theorem processItemImages_urls (it : CItem) (urls : List String) :
    (processItemImages it urls).images.map (·.image_url)
      = it.images.map (·.image_url)
        ++ (urls.filter
              (fun u => !((it.images.map (·.image_url)).dedup.contains u))).take 8 := by
  rw [(processItemImages_spec it urls).1]
  simp only [List.map_append, List.map_map]
  congr 1
  have : ∀ (l : List String) (b : Nat),
      l.enum.map ((fun r => r.image_url) ∘ (fun e => ItemImageRow.mk e.2 (b + e.1)))
        = l := by
    intro l b
    have h2 : ((fun (r : ItemImageRow) => r.image_url)
        ∘ (fun (e : Nat × String) => ItemImageRow.mk e.2 (b + e.1))) = Prod.snd := by
      funext e
      rfl
    rw [h2, List.enum_map_snd]
  exact this _ _

/-- Stored image urls stay duplicate-free through the image step when the
incoming url list is duplicate-free. -/
theorem processItemImages_nodup (it : CItem) (urls : List String)
    (hit : (it.images.map (·.image_url)).Nodup) (hurls : urls.Nodup) :
    ((processItemImages it urls).images.map (·.image_url)).Nodup := by
  rw [processItemImages_urls]
  apply List.Nodup.append hit
  · exact List.Nodup.sublist (List.take_sublist _ _) (hurls.filter _)
  · intro u hu1 hu2
    have hu2t := List.mem_of_mem_take hu2
    have h5 := List.of_mem_filter hu2t
    simp only [Bool.not_eq_true'] at h5
    simp at h5
    obtain ⟨row, hrow, hru⟩ := List.mem_map.mp hu1
    exact absurd hru (h5 row hrow)

/-- The variant step appends exactly the rows for fresh truthy skus and
touches no other field. -/
theorem processItemVariants_spec (it : CItem) (vds : List VariantData) :
    (processItemVariants it vds).variants
        = it.variants
          ++ (vds.filter
              (fun vd => truthyS vd.sku
                && !((it.variants.map (·.sku)).contains vd.sku))).map
            (fun vd => ItemVariantRow.mk vd.size vd.color vd.sku vd.stock vd.price)
    ∧ (processItemVariants it vds).images = it.images
    ∧ (processItemVariants it vds).id = it.id
    ∧ (processItemVariants it vds).name = it.name
    ∧ (processItemVariants it vds).brand = it.brand
    ∧ (processItemVariants it vds).color = it.color
    ∧ (processItemVariants it vds).size = it.size
    ∧ (processItemVariants it vds).clothing_type = it.clothing_type
    ∧ (processItemVariants it vds).description = it.description
    ∧ (processItemVariants it vds).price = it.price
    ∧ (processItemVariants it vds).category = it.category
    ∧ (processItemVariants it vds).article = it.article
    ∧ (processItemVariants it vds).style = it.style
    ∧ (processItemVariants it vds).image_url = it.image_url := by
  unfold processItemVariants
  split
  · rename_i hnil
    subst hnil
    simp
  · exact ⟨rfl, rfl, rfl, rfl, rfl, rfl, rfl, rfl, rfl, rfl, rfl, rfl, rfl, rfl⟩

/-- Stored variant skus stay duplicate-free through the variant step when
the incoming truthy skus are pairwise distinct. -/
theorem processItemVariants_nodup (it : CItem) (vds : List VariantData)
    (hit : (it.variants.map (·.sku)).Nodup)
    (hvds : ((vds.filter (fun vd => truthyS vd.sku)).map (·.sku)).Nodup) :
    ((processItemVariants it vds).variants.map (·.sku)).Nodup := by
  rw [(processItemVariants_spec it vds).1]
  rw [List.map_append, List.map_map]
  apply List.Nodup.append hit
  · have hff : vds.filter
        (fun vd => truthyS vd.sku && !((it.variants.map (·.sku)).contains vd.sku))
        = (vds.filter (fun vd => truthyS vd.sku)).filter
            (fun vd => !((it.variants.map (·.sku)).contains vd.sku)) := by
      rw [List.filter_filter]
      congr 1
      funext vd
      rw [Bool.and_comm]
    rw [hff]
    have hsub : ((vds.filter (fun vd => truthyS vd.sku)).filter
          (fun vd => !((it.variants.map (·.sku)).contains vd.sku))).map
          ((fun r : ItemVariantRow => r.sku)
            ∘ (fun vd => ItemVariantRow.mk vd.size vd.color vd.sku vd.stock vd.price))
        |>.Sublist ((vds.filter (fun vd => truthyS vd.sku)).map (·.sku)) := by
      have h0 : ((fun r : ItemVariantRow => r.sku)
          ∘ (fun vd : VariantData =>
              ItemVariantRow.mk vd.size vd.color vd.sku vd.stock vd.price))
          = (fun vd : VariantData => vd.sku) := by
        funext vd
        rfl
      rw [h0]
      exact (List.filter_sublist _).map _
    exact hsub.nodup hvds
  · intro u hu1 hu2
    simp only [List.mem_map, Function.comp] at hu2
    obtain ⟨vd, hvd, hsku⟩ := hu2
    have h6 := List.of_mem_filter hvd
    simp only [Bool.and_eq_true, Bool.not_eq_true'] at h6
    have h7 := h6.2
    simp at h7
    obtain ⟨row, hrow, hru⟩ := List.mem_map.mp hu1
    have : vd.sku = u := by simpa using hsku
    exact absurd (hru.trans this.symm) (fun he => (h7 row hrow) he)

/-- The price step touches only `price`, never clearing a present value. -/
theorem updPrice_spec (p : PerfectItem) (s : CItem × Bool) :
    ((updPrice p s).1.price = s.1.price
      ∨ truthyQ p.price = true ∧ (updPrice p s).1.price = p.price)
    ∧ (s.1.price.isSome = true → (updPrice p s).1.price.isSome = true)
    ∧ (updPrice p s).1.brand = s.1.brand
    ∧ (updPrice p s).1.color = s.1.color
    ∧ (updPrice p s).1.size = s.1.size
    ∧ (updPrice p s).1.clothing_type = s.1.clothing_type
    ∧ (updPrice p s).1.description = s.1.description
    ∧ (updPrice p s).1.category = s.1.category
    ∧ (updPrice p s).1.article = s.1.article
    ∧ (updPrice p s).1.style = s.1.style
    ∧ (updPrice p s).1.image_url = s.1.image_url
    ∧ (updPrice p s).1.images = s.1.images
    ∧ (updPrice p s).1.variants = s.1.variants
    ∧ (updPrice p s).1.name = s.1.name
    ∧ (updPrice p s).1.id = s.1.id := by
  unfold updPrice
  split
  · rename_i hc
    refine ⟨Or.inr ⟨hc.1, rfl⟩, ?_, rfl, rfl, rfl, rfl, rfl, rfl, rfl, rfl, rfl, rfl, rfl, rfl, rfl⟩
    intro
    have := hc.1
    unfold truthyQ at this
    cases hp : p.price with
    | none => rw [hp] at this; simp at this
    | some q => simp
  · exact ⟨Or.inl rfl, fun h => h, rfl, rfl, rfl, rfl, rfl, rfl, rfl, rfl, rfl, rfl, rfl, rfl, rfl⟩

/-- The description step touches only `description`, never clearing a
present value. -/
theorem updDescription_spec (p : PerfectItem) (s : CItem × Bool) :
    ((updDescription p s).1.description = s.1.description
      ∨ truthyS p.description = true ∧ (updDescription p s).1.description = p.description)
    ∧ (s.1.description.isSome = true → (updDescription p s).1.description.isSome = true)
    ∧ (updDescription p s).1.price = s.1.price
    ∧ (updDescription p s).1.brand = s.1.brand
    ∧ (updDescription p s).1.color = s.1.color
    ∧ (updDescription p s).1.size = s.1.size
    ∧ (updDescription p s).1.clothing_type = s.1.clothing_type
    ∧ (updDescription p s).1.category = s.1.category
    ∧ (updDescription p s).1.article = s.1.article
    ∧ (updDescription p s).1.style = s.1.style
    ∧ (updDescription p s).1.image_url = s.1.image_url
    ∧ (updDescription p s).1.images = s.1.images
    ∧ (updDescription p s).1.variants = s.1.variants
    ∧ (updDescription p s).1.name = s.1.name
    ∧ (updDescription p s).1.id = s.1.id := by
  unfold updDescription
  split
  · rename_i hc
    refine ⟨Or.inr ⟨hc.1, rfl⟩, ?_, rfl, rfl, rfl, rfl, rfl, rfl, rfl, rfl, rfl, rfl, rfl, rfl, rfl⟩
    intro
    have := hc.1
    unfold truthyS at this
    cases hp : p.description with
    | none => rw [hp] at this; simp at this
    | some d => simp
  · exact ⟨Or.inl rfl, fun h => h, rfl, rfl, rfl, rfl, rfl, rfl, rfl, rfl, rfl, rfl, rfl, rfl, rfl⟩

/-- `fillField` fills only an empty slot and never clears. -/
theorem fillField_spec (pv dv : Option String) :
    (fillField pv dv).1 = (if truthyS dv then dv else if truthyS pv then pv else dv)
    ∧ (dv.isSome = true → (fillField pv dv).1.isSome = true) := by
  unfold fillField
  constructor
  · split
    · rename_i hc
      rw [if_neg (by simpa using hc.2), if_pos hc.1]
    · rename_i hc
      by_cases h1 : truthyS dv = true
      · rw [if_pos h1]
      · rw [if_neg h1]
        by_cases h2 : truthyS pv = true
        · exact absurd ⟨h2, by simpa using h1⟩ hc
        · rw [if_neg h2]
  · intro hs
    split
    · rename_i hc
      have := hc.1
      unfold truthyS at this
      cases hp : pv with
      | none => rw [hp] at this; simp at this
      | some v => simp
    · exact hs

/-- The scalar step rewrites the six fill-if-empty columns through
`fillField` and touches nothing else. -/
theorem updScalars_spec (p : PerfectItem) (s : CItem × Bool) :
    (updScalars p s).1.brand = (fillField p.brand s.1.brand).1
    ∧ (updScalars p s).1.color = (fillField p.color s.1.color).1
    ∧ (updScalars p s).1.size = (fillField p.size s.1.size).1
    ∧ (updScalars p s).1.clothing_type = (fillField p.clothing_type s.1.clothing_type).1
    ∧ (updScalars p s).1.category = (fillField p.category s.1.category).1
    ∧ (updScalars p s).1.style = (fillField p.style s.1.style).1
    ∧ (updScalars p s).1.description = s.1.description
    ∧ (updScalars p s).1.price = s.1.price
    ∧ (updScalars p s).1.article = s.1.article
    ∧ (updScalars p s).1.image_url = s.1.image_url
    ∧ (updScalars p s).1.images = s.1.images
    ∧ (updScalars p s).1.variants = s.1.variants
    ∧ (updScalars p s).1.name = s.1.name
    ∧ (updScalars p s).1.id = s.1.id := by
  unfold updScalars
  exact ⟨rfl, rfl, rfl, rfl, rfl, rfl, rfl, rfl, rfl, rfl, rfl, rfl, rfl, rfl⟩

/-- The primary-image step fills only a falsy slot and touches nothing
else. -/
theorem updImageUrl_spec (p : PerfectItem) (s : CItem × Bool) :
    (truthyS s.1.image_url = true → (updImageUrl p s).1.image_url = s.1.image_url)
    ∧ (s.1.image_url.isSome = true → (updImageUrl p s).1.image_url.isSome = true)
    ∧ ((updImageUrl p s).1.image_url = s.1.image_url
        ∨ truthyS p.image_url = true ∧ (updImageUrl p s).1.image_url = p.image_url)
    ∧ (updImageUrl p s).1.brand = s.1.brand
    ∧ (updImageUrl p s).1.color = s.1.color
    ∧ (updImageUrl p s).1.size = s.1.size
    ∧ (updImageUrl p s).1.clothing_type = s.1.clothing_type
    ∧ (updImageUrl p s).1.description = s.1.description
    ∧ (updImageUrl p s).1.price = s.1.price
    ∧ (updImageUrl p s).1.category = s.1.category
    ∧ (updImageUrl p s).1.article = s.1.article
    ∧ (updImageUrl p s).1.style = s.1.style
    ∧ (updImageUrl p s).1.images = s.1.images
    ∧ (updImageUrl p s).1.variants = s.1.variants
    ∧ (updImageUrl p s).1.name = s.1.name
    ∧ (updImageUrl p s).1.id = s.1.id := by
  unfold updImageUrl
  split
  · rename_i hc
    refine ⟨fun ht => absurd ht (by simpa using hc.2), ?_, Or.inr ⟨hc.1, rfl⟩,
      rfl, rfl, rfl, rfl, rfl, rfl, rfl, rfl, rfl, rfl, rfl, rfl, rfl⟩
    intro
    have := hc.1
    unfold truthyS at this
    cases hp : p.image_url with
    | none => rw [hp] at this; simp at this
    | some u => simp
  · exact ⟨fun _ => rfl, fun h => h, Or.inl rfl,
      rfl, rfl, rfl, rfl, rfl, rfl, rfl, rfl, rfl, rfl, rfl, rfl, rfl⟩

/-- The image step of the merge only appends image rows, preserves all
scalars except a backfill of a falsy primary image, and preserves
variants. -/
theorem updImages_spec (p : PerfectItem) (s : CItem × Bool) :
    (∃ l, (updImages p s).1.images = s.1.images ++ l)
    ∧ (updImages p s).1.variants = s.1.variants
    ∧ (updImages p s).1.brand = s.1.brand
    ∧ (updImages p s).1.color = s.1.color
    ∧ (updImages p s).1.size = s.1.size
    ∧ (updImages p s).1.clothing_type = s.1.clothing_type
    ∧ (updImages p s).1.description = s.1.description
    ∧ (updImages p s).1.price = s.1.price
    ∧ (updImages p s).1.category = s.1.category
    ∧ (updImages p s).1.article = s.1.article
    ∧ (updImages p s).1.style = s.1.style
    ∧ (truthyS s.1.image_url = true → (updImages p s).1.image_url = s.1.image_url)
    ∧ (s.1.image_url.isSome = true → (updImages p s).1.image_url.isSome = true)
    ∧ (updImages p s).1.name = s.1.name
    ∧ (updImages p s).1.id = s.1.id := by
  unfold updImages
  split
  · obtain ⟨j1, j2, j3, j4, j5, j6, j7, j8, j9, j10, j11, j12, j13, j14, j15⟩ :=
      processItemImages_spec s.1 p.image_urls
    exact ⟨⟨_, j1⟩, j2, j5, j6, j7, j8, j9, j10, j11, j12, j13, j14, j15, j4, j3⟩
  · exact ⟨⟨[], by simp⟩, rfl, rfl, rfl, rfl, rfl, rfl, rfl, rfl, rfl, rfl,
      fun _ => rfl, fun h => h, rfl, rfl⟩

/-- The variant step of the merge only appends variant rows and preserves
everything else. -/
theorem updVariants_spec (p : PerfectItem) (s : CItem × Bool) :
    (∃ l, (updVariants p s).1.variants = s.1.variants ++ l)
    ∧ (updVariants p s).1.images = s.1.images
    ∧ (updVariants p s).1.brand = s.1.brand
    ∧ (updVariants p s).1.color = s.1.color
    ∧ (updVariants p s).1.size = s.1.size
    ∧ (updVariants p s).1.clothing_type = s.1.clothing_type
    ∧ (updVariants p s).1.description = s.1.description
    ∧ (updVariants p s).1.price = s.1.price
    ∧ (updVariants p s).1.category = s.1.category
    ∧ (updVariants p s).1.article = s.1.article
    ∧ (updVariants p s).1.style = s.1.style
    ∧ (updVariants p s).1.image_url = s.1.image_url
    ∧ (updVariants p s).1.name = s.1.name
    ∧ (updVariants p s).1.id = s.1.id := by
  unfold updVariants
  split
  · obtain ⟨k1, k2, k3, k4, k5, k6, k7, k8, k9, k10, k11, k12, k13, k14⟩ :=
      processItemVariants_spec s.1 p.variants
    exact ⟨⟨_, k1⟩, k2, k5, k6, k7, k8, k9, k10, k11, k12, k13, k14, k4, k3⟩
  · exact ⟨⟨[], by simp⟩, rfl, rfl, rfl, rfl, rfl, rfl, rfl, rfl, rfl, rfl, rfl, rfl, rfl⟩

/-- The whole field-level merge: fill-if-empty semantics for the six
scalar columns, append-only images and variants, a never-cleared primary
image, and untouched identity fields. -/
theorem updateExistingItem_spec (p : PerfectItem) (it : CItem) :
    (updateExistingItem p it).1.brand
        = (if truthyS it.brand then it.brand
           else if truthyS p.brand then p.brand else it.brand)
    ∧ (updateExistingItem p it).1.color
        = (if truthyS it.color then it.color
           else if truthyS p.color then p.color else it.color)
    ∧ (updateExistingItem p it).1.size
        = (if truthyS it.size then it.size
           else if truthyS p.size then p.size else it.size)
    ∧ (updateExistingItem p it).1.clothing_type
        = (if truthyS it.clothing_type then it.clothing_type
           else if truthyS p.clothing_type then p.clothing_type else it.clothing_type)
    ∧ (updateExistingItem p it).1.category
        = (if truthyS it.category then it.category
           else if truthyS p.category then p.category else it.category)
    ∧ (updateExistingItem p it).1.style
        = (if truthyS it.style then it.style
           else if truthyS p.style then p.style else it.style)
    ∧ (∃ l, (updateExistingItem p it).1.images = it.images ++ l)
    ∧ (∃ l, (updateExistingItem p it).1.variants = it.variants ++ l)
    ∧ (truthyS it.image_url = true
        → (updateExistingItem p it).1.image_url = it.image_url)
    ∧ (updateExistingItem p it).1.article = it.article
    ∧ (updateExistingItem p it).1.name = it.name
    ∧ (updateExistingItem p it).1.id = it.id
    ∧ (it.image_url.isSome = true → (updateExistingItem p it).1.image_url.isSome = true)
    ∧ (it.description.isSome = true → (updateExistingItem p it).1.description.isSome = true)
    ∧ (it.price.isSome = true → (updateExistingItem p it).1.price.isSome = true)
    ∧ (it.brand.isSome = true → (updateExistingItem p it).1.brand.isSome = true)
    ∧ (it.color.isSome = true → (updateExistingItem p it).1.color.isSome = true)
    ∧ (it.size.isSome = true → (updateExistingItem p it).1.size.isSome = true)
    ∧ (it.clothing_type.isSome = true
        → (updateExistingItem p it).1.clothing_type.isSome = true)
    ∧ (it.category.isSome = true → (updateExistingItem p it).1.category.isSome = true)
    ∧ (it.style.isSome = true → (updateExistingItem p it).1.style.isSome = true) := by
  obtain ⟨a1, a2, a3, a4, a5, a6, a7, a8, a9, a10, a11, a12, a13, a14, a15⟩ :=
    updPrice_spec p (it, false)
  obtain ⟨b1, b2, b3, b4, b5, b6, b7, b8, b9, b10, b11, b12, b13, b14, b15⟩ :=
    updDescription_spec p (updPrice p (it, false))
  obtain ⟨c1, c2, c3, c4, c5, c6, c7, c8, c9, c10, c11, c12, c13, c14⟩ :=
    updScalars_spec p (updDescription p (updPrice p (it, false)))
  obtain ⟨d1, d2, d3, d4, d5, d6, d7, d8, d9, d10, d11, d12, d13, d14, d15, d16⟩ :=
    updImageUrl_spec p (updScalars p (updDescription p (updPrice p (it, false))))
  obtain ⟨e1, e2, e3, e4, e5, e6, e7, e8, e9, e10, e11, e12, e13, e14, e15⟩ :=
    updImages_spec p
      (updImageUrl p (updScalars p (updDescription p (updPrice p (it, false)))))
  obtain ⟨f1, f2, f3, f4, f5, f6, f7, f8, f9, f10, f11, f12, f13, f14⟩ :=
    updVariants_spec p
      (updImages p (updImageUrl p (updScalars p (updDescription p (updPrice p (it, false))))))
  have hbrand : (updateExistingItem p it).1.brand = (fillField p.brand it.brand).1 := by
    show (updVariants p _).1.brand = _
    rw [f3, e3, d4, c1, b4, a3]
  have hcolor : (updateExistingItem p it).1.color = (fillField p.color it.color).1 := by
    show (updVariants p _).1.color = _
    rw [f4, e4, d5, c2, b5, a4]
  have hsize : (updateExistingItem p it).1.size = (fillField p.size it.size).1 := by
    show (updVariants p _).1.size = _
    rw [f5, e5, d6, c3, b6, a5]
  have hct : (updateExistingItem p it).1.clothing_type
      = (fillField p.clothing_type it.clothing_type).1 := by
    show (updVariants p _).1.clothing_type = _
    rw [f6, e6, d7, c4, b7, a6]
  have hcat : (updateExistingItem p it).1.category
      = (fillField p.category it.category).1 := by
    show (updVariants p _).1.category = _
    rw [f9, e9, d10, c5, b8, a8]
  have hstyle : (updateExistingItem p it).1.style = (fillField p.style it.style).1 := by
    show (updVariants p _).1.style = _
    rw [f11, e11, d12, c6, b10, a10]
  refine ⟨?_, ?_, ?_, ?_, ?_, ?_, ?_, ?_, ?_, ?_, ?_, ?_, ?_, ?_, ?_, ?_, ?_, ?_, ?_, ?_, ?_⟩
  · rw [hbrand, (fillField_spec _ _).1]
  · rw [hcolor, (fillField_spec _ _).1]
  · rw [hsize, (fillField_spec _ _).1]
  · rw [hct, (fillField_spec _ _).1]
  · rw [hcat, (fillField_spec _ _).1]
  · rw [hstyle, (fillField_spec _ _).1]
  · obtain ⟨l, hl⟩ := e1
    refine ⟨l, ?_⟩
    show (updVariants p _).1.images = _
    rw [f2, hl, d13, c11, b12, a12]
  · obtain ⟨l, hl⟩ := f1
    refine ⟨l, ?_⟩
    rw [show (updateExistingItem p it).1.variants = _ from hl, e2, d14, c12, b13, a13]
  · intro ht
    have h4 : truthyS (updImageUrl p (updScalars p (updDescription p (updPrice p (it, false))))).1.image_url = true := by
      by_cases hin : truthyS (updScalars p (updDescription p (updPrice p (it, false)))).1.image_url = true
      · rw [d1 hin, c10, b11, a11]
        rwa [c10, b11, a11] at hin
      · rcases d3 with heq | ⟨hp2, heq⟩
        · rw [heq]
          exact absurd (by rwa [c10, b11, a11]) hin
        · rw [heq]
          exact hp2
    show (updVariants p _).1.image_url = _
    rw [f12, e12 h4, d1 (by rwa [c10, b11, a11]), c10, b11, a11]
  · show (updVariants p _).1.article = _
    rw [f10, e10, d11, c9, b9, a9]
  · show (updVariants p _).1.name = _
    rw [f13, e14, d15, c13, b14, a14]
  · show (updVariants p _).1.id = _
    rw [f14, e15, d16, c14, b15, a15]
  · intro hs
    show (updVariants p _).1.image_url.isSome = true
    rw [f12]
    apply e13
    apply d2
    rw [c10, b11, a11]
    exact hs
  · intro hs
    show (updVariants p _).1.description.isSome = true
    rw [f7, e7, d8, c7]
    exact b2 (by rwa [a7])
  · intro hs
    show (updVariants p _).1.price.isSome = true
    rw [f8, e8, d9, c8, b3]
    exact a2 hs
  · intro hs
    rw [hbrand]
    exact (fillField_spec _ _).2 hs
  · intro hs
    rw [hcolor]
    exact (fillField_spec _ _).2 hs
  · intro hs
    rw [hsize]
    exact (fillField_spec _ _).2 hs
  · intro hs
    rw [hct]
    exact (fillField_spec _ _).2 hs
  · intro hs
    rw [hcat]
    exact (fillField_spec _ _).2 hs
  · intro hs
    rw [hstyle]
    exact (fillField_spec _ _).2 hs

/-- C2.  Merge monotonicity: an update of an existing catalog row never
decreases its non-null column count and never shrinks its image or
variant row sets; the six scalar columns brand, color, size,
clothing_type, category, style are filled only when currently empty; and
the primary image, once set (truthy), is never changed — in particular
never cleared — only backfilled when previously empty. -/
theorem merge_update_monotone (p : PerfectItem) (it : CItem) :
    nonNullCount it ≤ nonNullCount (updateExistingItem p it).1
    ∧ (∃ l, (updateExistingItem p it).1.images = it.images ++ l)
    ∧ (∃ l, (updateExistingItem p it).1.variants = it.variants ++ l)
    ∧ (updateExistingItem p it).1.brand
        = (if truthyS it.brand then it.brand
           else if truthyS p.brand then p.brand else it.brand)
    ∧ (updateExistingItem p it).1.color
        = (if truthyS it.color then it.color
           else if truthyS p.color then p.color else it.color)
    ∧ (updateExistingItem p it).1.size
        = (if truthyS it.size then it.size
           else if truthyS p.size then p.size else it.size)
    ∧ (updateExistingItem p it).1.clothing_type
        = (if truthyS it.clothing_type then it.clothing_type
           else if truthyS p.clothing_type then p.clothing_type else it.clothing_type)
    ∧ (updateExistingItem p it).1.category
        = (if truthyS it.category then it.category
           else if truthyS p.category then p.category else it.category)
    ∧ (updateExistingItem p it).1.style
        = (if truthyS it.style then it.style
           else if truthyS p.style then p.style else it.style)
    ∧ (truthyS it.image_url = true
        → (updateExistingItem p it).1.image_url = it.image_url)
    ∧ (it.image_url.isSome = true
        → (updateExistingItem p it).1.image_url.isSome = true) := by
  obtain ⟨g1, g2, g3, g4, g5, g6, g7, g8, g9, g10, g11, g12, g13, g14, g15,
    g16, g17, g18, g19, g20, g21⟩ := updateExistingItem_spec p it
  refine ⟨?_, g7, g8, g1, g2, g3, g4, g5, g6, g9, g13⟩
  unfold nonNullCount
  have m1 := g16
  have m2 := g17
  have m3 := g18
  have m4 := g19
  have m5 := g14
  have m6 := g15
  have m7 := g20
  have m8 : (updateExistingItem p it).1.article.isSome = it.article.isSome := by rw [g10]
  have m9 := g21
  have m10 := g13
  have hmono : ∀ a b : Bool, (a = true → b = true) → a.toNat ≤ b.toNat := by
    intro a b h
    cases a with
    | false => simp
    | true => rw [h rfl]
  have n1 := hmono _ _ m1
  have n2 := hmono _ _ m2
  have n3 := hmono _ _ m3
  have n4 := hmono _ _ m4
  have n5 := hmono _ _ m5
  have n6 := hmono _ _ m6
  have n7 := hmono _ _ m7
  have n9 := hmono _ _ m9
  have n10 := hmono _ _ m10
  rw [m8] at *
  omega

/-- C2 witness: merging a fully populated candidate over the bare stored
row grows the non-null count and fills the empty brand. -/
theorem merge_update_monotone_witness :
    nonNullCount (plainRow "Nike Shirt")
        ≤ nonNullCount (updateExistingItem richItem (plainRow "Nike Shirt")).1
    ∧ (updateExistingItem richItem (plainRow "Nike Shirt")).1.brand
        = (if truthyS (plainRow "Nike Shirt").brand then (plainRow "Nike Shirt").brand
           else if truthyS richItem.brand then richItem.brand
           else (plainRow "Nike Shirt").brand) :=
  ⟨(merge_update_monotone richItem (plainRow "Nike Shirt")).1,
   (merge_update_monotone richItem (plainRow "Nike Shirt")).2.2.2.1⟩

/-- A successful lookup returns a stored row at its index. -/
theorem findExistingItem_mem (db : DB) (p : PerfectItem) (i : Nat) (it : CItem)
    (h : findExistingItem db p = some (i, it)) : db.items[i]? = some it := by
  unfold findExistingItem at h
  have hstep : ∀ (pr : Nat × CItem → Bool),
      db.items.enum.find? pr = some (i, it) → db.items[i]? = some it := by
    intro pr hf
    have hm := List.mem_of_find?_eq_some hf
    exact (List.mk_mem_enum_iff_getElem?).mp hm
  rcases hb : (if truthyS p.article then
      db.items.enum.find? (fun e => e.2.article == p.article) else none) with _ | e
  · rw [hb] at h
    rcases hb2 : (if truthyS p.brand then
        db.items.enum.find? (fun e => e.2.brand == p.brand && e.2.name == p.name)
      else none) with _ | e2
    · rw [hb2] at h
      exact hstep _ h
    · rw [hb2] at h
      obtain rfl : e2 = (i, it) := Option.some.injEq .. ▸ h
      split at hb2
      · exact hstep _ hb2
      · exact absurd hb2 (by simp)
  · rw [hb] at h
    obtain rfl : e = (i, it) := Option.some.injEq .. ▸ h
    split at hb
    · exact hstep _ hb
    · exact absurd hb (by simp)

/-- A failed lookup with a truthy candidate article means no stored row
carries that article. -/
theorem findExistingItem_none_article (db : DB) (p : PerfectItem)
    (h : findExistingItem db p = none) (ht : truthyS p.article = true) :
    ∀ it ∈ db.items, it.article ≠ p.article := by
  intro it hmem heq
  unfold findExistingItem at h
  rcases hb : (if truthyS p.article then
      db.items.enum.find? (fun e => e.2.article == p.article) else none) with _ | e
  · rw [if_pos ht] at hb
    have hall := List.find?_eq_none.mp hb
    obtain ⟨k, hk, hkeq⟩ := List.mem_iff_getElem.mp hmem
    have henum : (k, it) ∈ db.items.enum := by
      apply (List.mk_mem_enum_iff_getElem?).mpr
      rw [List.getElem?_eq_getElem hk, hkeq]
    have := hall (k, it) henum
    simp only [beq_iff_eq] at this
    exact this heq
  · rw [hb] at h
    simp at h

/-- The create path appends exactly one row, whose identity and scalar
fields are the candidate's. -/
theorem createNewItem_spec (db : DB) (p : PerfectItem) :
    (createNewItem db p).2.items = db.items ++ [(createNewItem db p).1]
    ∧ (createNewItem db p).1.article = p.article
    ∧ (createNewItem db p).1.name = p.name
    ∧ (createNewItem db p).1.brand = p.brand
    ∧ (createNewItem db p).1.id = db.next_id
    ∧ (createNewItem db p).2.next_id = db.next_id + 1 := by
  unfold createNewItem
  dsimp only
  split <;> split <;>
    refine ⟨rfl, ?_, ?_, ?_, ?_, rfl⟩ <;>
    simp [(processItemVariants_spec _ _).2.2.2.2.2.2.2.2.2.2.2.1,
      (processItemVariants_spec _ _).2.2.2.1,
      (processItemVariants_spec _ _).2.2.2.2.1,
      (processItemVariants_spec _ _).2.2.1,
      (processItemImages_spec _ _).2.2.2.2.2.2.2.2.2.2.2.1,
      (processItemImages_spec _ _).2.2.2.1,
      (processItemImages_spec _ _).2.2.2.2.1,
      (processItemImages_spec _ _).2.2.1]

/-- Replacing a stored row by one with the same article leaves the article
column unchanged. -/
theorem map_article_set (l : List CItem) : ∀ (i : Nat) (x y : CItem),
    l[i]? = some x → y.article = x.article
    → (l.set i y).map (·.article) = l.map (·.article) := by
  induction l with
  | nil => intro i x y h _; simp at h
  | cons hd tl ih =>
      intro i x y h heq
      cases i with
      | zero =>
          obtain rfl : hd = x := by simpa using h
          simp [heq]
      | succ j =>
          have h2 : tl[j]? = some x := by simpa using h
          simp only [List.set_cons_succ, List.map_cons]
          rw [ih j x y h2 heq]

/-- Rows with the same article column satisfy the same pairwise article
constraints. -/
theorem pairwise_articles_of_map_eq (l l2 : List CItem)
    (h : l2.map (fun it => it.article) = l.map (fun it => it.article))
    (hp : l.Pairwise
      (fun a b => ∀ s : String, a.article = some s → b.article ≠ some s)) :
    l2.Pairwise
      (fun a b => ∀ s : String, a.article = some s → b.article ≠ some s) := by
  have h1 : (l.map (fun it => it.article)).Pairwise
      (fun x y => ∀ s : String, x = some s → y ≠ some s) :=
    hp.map _ (fun a b hab => hab)
  rw [← h] at h1
  exact List.Pairwise.of_map _ (fun a b hab => hab) h1

/-- One import step preserves the pairwise-distinct-article invariant for
candidates whose article is not the empty string. -/
theorem save_preserves_articles (db : DB) (p : PerfectItem)
    (hpair : db.items.Pairwise
      (fun a b => ∀ s : String, a.article = some s → b.article ≠ some s))
    (hp : p.article ≠ some "") :
    (saveToDatabase db p).2.items.Pairwise
      (fun a b => ∀ s : String, a.article = some s → b.article ≠ some s) := by
  unfold saveToDatabase
  cases hfind : findExistingItem db p with
  | some e =>
      obtain ⟨i, it⟩ := e
      dsimp only
      have hart : (updateExistingItem p it).1.article = it.article :=
        (updateExistingItem_spec p it).2.2.2.2.2.2.2.2.2.1
      have hmem := findExistingItem_mem db p i it hfind
      have hmap := map_article_set db.items i it (updateExistingItem p it).1 hmem hart
      exact pairwise_articles_of_map_eq db.items _ hmap hpair
  | none =>
      dsimp only
      rw [(createNewItem_spec db p).1]
      rw [List.pairwise_append]
      refine ⟨hpair, by simp, ?_⟩
      intro a ha b hb
      obtain rfl : b = (createNewItem db p).1 := by simpa using hb
      intro s hs
      rw [(createNewItem_spec db p).2.1]
      cases hpa : p.article with
      | none => simp
      | some s0 =>
          intro hcontra
          have heq : s = s0 := by simpa using hcontra.symm
          subst heq
          have hs0 : s ≠ "" := by
            intro h0
            subst h0
            exact hp hpa
          have ht : truthyS p.article = true := by
            rw [hpa]
            simpa [truthyS] using hs0
          exact findExistingItem_none_article db p hfind ht a ha (hs.trans hpa.symm)

/-- Running a whole import preserves the pairwise-distinct-article
invariant, provided no candidate carries the empty-string article (the
pipeline never produces one). -/
theorem importAll_preserves_articles (ps : List PerfectItem) :
    ∀ db : DB, (∀ p ∈ ps, p.article ≠ some "") →
    db.items.Pairwise
      (fun a b => ∀ s : String, a.article = some s → b.article ≠ some s) →
    (importAll db ps).items.Pairwise
      (fun a b => ∀ s : String, a.article = some s → b.article ≠ some s) := by
  induction ps with
  | nil =>
      intro db _ hpair
      simpa [importAll] using hpair
  | cons p ps ih =>
      intro db hps hpair
      have hstep : importAll db (p :: ps) = importAll (saveToDatabase db p).2 ps := by
        simp [importAll]
      rw [hstep]
      exact ih _ (fun q hq => hps q (List.mem_cons_of_mem p hq))
        (save_preserves_articles db p hpair (hps p (List.mem_cons_self p ps)))

/-- C3: every store reachable by the import pipeline from the empty store
keeps the non-null `article` values of its items pairwise distinct; the
upstream agents never emit an empty-string article (`_process_basic_data`
strips to `None`, `_finalize_data` generates a non-empty `ART…` code), so
the hypothesis holds for every pipeline-produced candidate list. -/
theorem article_dedup_invariant (ps : List PerfectItem)
    (hps : ∀ p ∈ ps, p.article ≠ some "") :
    (∀ sku : Option String, articleFromRaw sku ≠ some "") ∧
    (∀ (art : Option String) (nm : String) (br : Option String) (dg : String),
       art ≠ some "" → finalizeArticle art nm br dg ≠ some "") ∧
    (importAll emptyDB ps).items.Pairwise
      (fun a b => ∀ s : String, a.article = some s → b.article ≠ some s) := by
  refine ⟨?_, ?_, ?_⟩
  · intro sku h
    unfold articleFromRaw at h
    split at h
    · exact Option.noConfusion h
    · rename_i hne
      have h2 := Option.some.inj h
      have hd := congrArg String.data h2
      simp [List.asString] at hd
      exact hne hd
  · intro art nm br dg hart h
    unfold finalizeArticle at h
    split at h
    · have h2 := Option.some.inj h
      have hd := congrArg String.data h2
      simp [String.data_append] at hd
    · exact hart h
  · exact importAll_preserves_articles ps emptyDB hps (by simp [emptyDB])

/-- Witness for C3 at a concrete two-candidate import. -/
theorem article_dedup_invariant_witness :
    (∀ p ∈ [richItem, bareItem "Other"], p.article ≠ some "") ∧
    ((importAll emptyDB [richItem, bareItem "Other"]).items.Pairwise
      (fun a b => ∀ s : String, a.article = some s → b.article ≠ some s)) :=
  ⟨by decide, (article_dedup_invariant [richItem, bareItem "Other"] (by decide)).2.2⟩

/-- The image step of the merge keeps the stored url column
duplicate-free when the incoming url list is duplicate-free. -/
theorem updImages_nodup (p : PerfectItem) (s : CItem × Bool)
    (hit : (s.1.images.map (fun r => r.image_url)).Nodup)
    (hurls : p.image_urls.Nodup) :
    ((updImages p s).1.images.map (fun r => r.image_url)).Nodup := by
  unfold updImages
  split
  · exact processItemImages_nodup s.1 p.image_urls hit hurls
  · exact hit

/-- The variant step of the merge keeps the stored sku column
duplicate-free when the incoming truthy skus are pairwise distinct. -/
theorem updVariants_nodup (p : PerfectItem) (s : CItem × Bool)
    (hit : (s.1.variants.map (fun r => r.sku)).Nodup)
    (hvds : ((p.variants.filter (fun vd => truthyS vd.sku)).map (fun vd => vd.sku)).Nodup) :
    ((updVariants p s).1.variants.map (fun r => r.sku)).Nodup := by
  unfold updVariants
  split
  · exact processItemVariants_nodup s.1 p.variants hit hvds
  · exact hit

/-- The four leading merge steps (price, description, scalars, primary
image) never touch the image or variant rows. -/
theorem headSteps_images_variants (p : PerfectItem) (s : CItem × Bool) :
    (updImageUrl p (updScalars p (updDescription p (updPrice p s)))).1.images
      = s.1.images
    ∧ (updImageUrl p (updScalars p (updDescription p (updPrice p s)))).1.variants
      = s.1.variants := by
  constructor
  · rw [(updImageUrl_spec p _).2.2.2.2.2.2.2.2.2.2.2.2.1,
        (updScalars_spec p _).2.2.2.2.2.2.2.2.2.2.1,
        (updDescription_spec p _).2.2.2.2.2.2.2.2.2.2.2.1,
        (updPrice_spec p s).2.2.2.2.2.2.2.2.2.2.2.1]
  · rw [(updImageUrl_spec p _).2.2.2.2.2.2.2.2.2.2.2.2.2.1,
        (updScalars_spec p _).2.2.2.2.2.2.2.2.2.2.2.1,
        (updDescription_spec p _).2.2.2.2.2.2.2.2.2.2.2.2.1,
        (updPrice_spec p s).2.2.2.2.2.2.2.2.2.2.2.2.1]

/-- The whole merge keeps both the url and the sku columns
duplicate-free. -/
theorem updateExistingItem_nodup (p : PerfectItem) (it : CItem)
    (himg : (it.images.map (fun r => r.image_url)).Nodup)
    (hvar : (it.variants.map (fun r => r.sku)).Nodup)
    (hpi : p.image_urls.Nodup)
    (hpv : ((p.variants.filter (fun vd => truthyS vd.sku)).map (fun vd => vd.sku)).Nodup) :
    (((updateExistingItem p it).1.images.map (fun r => r.image_url)).Nodup)
    ∧ (((updateExistingItem p it).1.variants.map (fun r => r.sku)).Nodup) := by
  unfold updateExistingItem
  obtain ⟨hhi, hhv⟩ := headSteps_images_variants p (it, false)
  constructor
  · rw [(updVariants_spec p _).2.1]
    apply updImages_nodup p _ _ hpi
    rw [hhi]
    exact himg
  · apply updVariants_nodup p _ _ hpv
    rw [(updImages_spec p _).2.1, hhv]
    exact hvar

/-- A freshly created row has duplicate-free url and sku columns when the
candidate's url list and truthy skus are duplicate-free. -/
theorem createNewItem_nodup (db : DB) (p : PerfectItem)
    (hpi : p.image_urls.Nodup)
    (hpv : ((p.variants.filter (fun vd => truthyS vd.sku)).map (fun vd => vd.sku)).Nodup) :
    (((createNewItem db p).1.images.map (fun r => r.image_url)).Nodup)
    ∧ (((createNewItem db p).1.variants.map (fun r => r.sku)).Nodup) := by
  unfold createNewItem
  dsimp only
  constructor
  · split
    · split
      · simp
      · exact processItemImages_nodup _ p.image_urls (by simp) hpi
    · rw [(processItemVariants_spec _ _).2.1]
      split
      · simp
      · exact processItemImages_nodup _ p.image_urls (by simp) hpi
  · split
    · split
      · simp
      · rw [(processItemImages_spec _ _).2.1]
        simp
    · refine processItemVariants_nodup _ p.variants ?_ hpv
      split
      · simp
      · rw [(processItemImages_spec _ _).2.1]
        simp

/-- The lookup cascade finds nothing in the empty store. -/
theorem findExistingItem_empty (p : PerfectItem) :
    findExistingItem emptyDB p = none := by
  unfold findExistingItem emptyDB
  simp

/-- In a single-row store whose row carries the candidate's article, name
and brand, the lookup cascade resolves to that row whichever branch
fires. -/
theorem findExistingItem_single (db : DB) (c : CItem) (p : PerfectItem)
    (hdb : db.items = [c]) (ha : c.article = p.article) (hn : c.name = p.name)
    (hb : c.brand = p.brand) :
    findExistingItem db p = some (0, c) := by
  unfold findExistingItem
  rw [hdb]
  by_cases h1 : truthyS p.article = true
  · simp [h1, List.enum, List.enumFrom, List.find?, ha]
  · by_cases h2 : truthyS p.brand = true
    · simp [h1, h2, List.enum, List.enumFrom, List.find?, ha, hn, hb]
    · simp [h1, h2, List.enum, List.enumFrom, List.find?, hn]

/-- When the lookup resolves, one save step is the merge-update branch. -/
theorem saveToDatabase_found (db : DB) (p : PerfectItem) (i : Nat) (it : CItem)
    (h : findExistingItem db p = some (i, it)) :
    saveToDatabase db p
      = ({ success := (updateExistingItem p it).2, item_id := some it.id,
           action := if (updateExistingItem p it).2 then "updated" else "skipped",
           errors := [] },
         { db with items := db.items.set i (updateExistingItem p it).1 }) := by
  unfold saveToDatabase
  rw [h]

/-- When the lookup finds nothing, one save step is the create branch. -/
theorem saveToDatabase_notFound (db : DB) (p : PerfectItem)
    (h : findExistingItem db p = none) :
    saveToDatabase db p
      = ({ success := true, item_id := some (createNewItem db p).1.id,
           action := "created", errors := [] }, (createNewItem db p).2) := by
  unfold saveToDatabase
  rw [h]

/-- C1: importing the same candidate twice into the empty store is
idempotent: the first call creates the row, the second call resolves to it
and returns action `updated` or `skipped`, the store still holds exactly
one row, and that row's image urls and variant skus stay duplicate-free —
no duplicate item, image or variant rows appear.  The two duplicate-free
hypotheses hold for every parser-produced candidate (the extractors dedup
urls and skus). -/
theorem reimport_idempotent (p : PerfectItem)
    (hpi : p.image_urls.Nodup)
    (hpv : ((p.variants.filter (fun vd => truthyS vd.sku)).map (fun vd => vd.sku)).Nodup) :
    (saveToDatabase emptyDB p).1.action = "created"
    ∧ (saveToDatabase emptyDB p).2.items.length = 1
    ∧ ((saveToDatabase (saveToDatabase emptyDB p).2 p).1.action = "updated"
        ∨ (saveToDatabase (saveToDatabase emptyDB p).2 p).1.action = "skipped")
    ∧ (saveToDatabase (saveToDatabase emptyDB p).2 p).2.items.length = 1
    ∧ ∀ it ∈ (saveToDatabase (saveToDatabase emptyDB p).2 p).2.items,
        ((it.images.map (fun r => r.image_url)).Nodup
          ∧ (it.variants.map (fun r => r.sku)).Nodup) := by
  obtain ⟨hitems, hart, hname, hbrand, hid, hnext⟩ := createNewItem_spec emptyDB p
  have hsv1 := saveToDatabase_notFound emptyDB p (findExistingItem_empty p)
  have hdb1 : (saveToDatabase emptyDB p).2.items = [(createNewItem emptyDB p).1] := by
    rw [hsv1, hitems]
    rfl
  have hfind2 : findExistingItem (saveToDatabase emptyDB p).2 p
      = some (0, (createNewItem emptyDB p).1) :=
    findExistingItem_single _ _ p hdb1 hart hname hbrand
  have hsv2 := saveToDatabase_found _ p 0 _ hfind2
  refine ⟨by rw [hsv1], by simp [hdb1], ?_, ?_, ?_⟩
  · rw [hsv2]
    cases (updateExistingItem p (createNewItem emptyDB p).1).2
    · exact Or.inr rfl
    · exact Or.inl rfl
  · rw [hsv2]
    dsimp only
    rw [hdb1]
    rfl
  · intro it hit
    rw [hsv2] at hit
    dsimp only at hit
    rw [hdb1] at hit
    simp only [List.set] at hit
    have heq : it = (updateExistingItem p (createNewItem emptyDB p).1).1 := by
      simpa using hit
    subst heq
    obtain ⟨hci, hcv⟩ := createNewItem_nodup emptyDB p hpi hpv
    exact updateExistingItem_nodup p _ hci hcv hpi hpv

/-- Witness for C1 at the populated candidate. -/
theorem reimport_idempotent_witness :
    richItem.image_urls.Nodup
    ∧ ((saveToDatabase (saveToDatabase emptyDB richItem).2 richItem).1.action = "updated"
        ∨ (saveToDatabase (saveToDatabase emptyDB richItem).2 richItem).1.action = "skipped")
    ∧ (saveToDatabase (saveToDatabase emptyDB richItem).2 richItem).2.items.length = 1 :=
  ⟨by decide, (reimport_idempotent richItem (by decide) (by decide)).2.2.1,
   (reimport_idempotent richItem (by decide) (by decide)).2.2.2.1⟩

/-- A fold preserves any property its step function preserves. -/
theorem foldl_preserve {α β : Type} (P : α → Prop) (f : α → β → α) (l : List β)
    (hstep : ∀ a b, P a → P (f a b)) : ∀ a, P a → P (l.foldl f a) := by
  induction l with
  | nil => intro a ha; simpa using ha
  | cons x xs ih => intro a ha; exact ih _ (hstep a x ha)

/-- The image walk never introduces a duplicate url. -/
theorem walkCollectF_nodup (fuel : Nat) :
    ∀ (st : List String) (v : PyVal), st.Nodup → (walkCollectF fuel st v).Nodup := by
  induction fuel with
  | zero => intro st v h; exact h
  | succ n ih =>
      intro st v h
      rw [walkCollectF.eq_def]
      dsimp only
      split
      · exact h
      · cases v with
        | vnull => exact h
        | vbool b => exact h
        | vnum q => exact h
        | vstr s =>
            dsimp only
            split
            · split
              · split
                · exact h
                · rename_i u hn hc
                  have hnm : ¬ u ∈ st := by simpa using hc
                  simp [List.nodup_append, h, hnm]
              · exact h
            · exact h
        | varr xs =>
            dsimp only
            exact foldl_preserve (fun l : List String => l.Nodup) _ xs (fun a b ha => ih a b ha) st h
        | vobj kvs =>
            dsimp only
            refine foldl_preserve (fun l : List String => l.Nodup) _ kvs ?_ _ ?_
            · intro a e ha
              split
              · exact ih a e.2 ha
              · exact ha
            · refine foldl_preserve (fun l : List String => l.Nodup) _ priorityKeys ?_ st h
              intro a k ha
              split
              · split
                · exact ih _ _ ha
                · exact ha
              · exact ha

/-- The image walk respects the cap of 8 stored urls. -/
theorem walkCollectF_cap (fuel : Nat) :
    ∀ (st : List String) (v : PyVal), st.length ≤ 8 →
    (walkCollectF fuel st v).length ≤ 8 := by
  induction fuel with
  | zero => intro st v h; exact h
  | succ n ih =>
      intro st v h
      rw [walkCollectF.eq_def]
      dsimp only
      split
      · exact h
      · rename_i hlt
        have h7 : st.length < 8 := by omega
        cases v with
        | vnull => exact h
        | vbool b => exact h
        | vnum q => exact h
        | vstr s =>
            dsimp only
            split
            · split
              · split
                · exact h
                · simp
                  omega
              · exact h
            · exact h
        | varr xs =>
            dsimp only
            exact foldl_preserve (fun l : List String => l.length ≤ 8) _ xs
              (fun a b ha => ih a b ha) st h
        | vobj kvs =>
            dsimp only
            refine foldl_preserve (fun l : List String => l.length ≤ 8) _ kvs ?_ _ ?_
            · intro a e ha
              split
              · exact ih a e.2 ha
              · exact ha
            · refine foldl_preserve (fun l : List String => l.length ≤ 8) _ priorityKeys ?_ st h
              intro a k ha
              split
              · split
                · exact ih _ _ ha
                · exact ha
              · exact ha

/-- The field loop of the image collection yields a duplicate-free list of
at most 8 urls. -/
theorem imageFieldsStep_inv (item : List (String × PyVal)) :
    (imageFieldsStep item).Nodup ∧ (imageFieldsStep item).length ≤ 8 := by
  unfold imageFieldsStep
  refine foldl_preserve
    (fun l : List String => l.Nodup ∧ l.length ≤ 8) _ imageFields ?_ []
    ⟨List.nodup_nil, by simp⟩
  intro a f ha
  split
  · split
    · exact ⟨walkCollectF_nodup _ _ _ ha.1, walkCollectF_cap _ _ _ ha.2⟩
    · exact ha
  · exact ha

/-- The thumbnail block adds at most one fresh url — with no cap check, so
only the bound 9 survives it. -/
theorem thumbnailStep_inv (item : List (String × PyVal)) (found : List String)
    (h : found.Nodup ∧ found.length ≤ 8) :
    (thumbnailStep item found).Nodup ∧ (thumbnailStep item found).length ≤ 9 := by
  unfold thumbnailStep
  dsimp only
  split
  · split
    · split
      · exact ⟨h.1, by omega⟩
      · rename_i u hu hc
        refine ⟨List.nodup_cons.mpr ⟨by simpa using hc, h.1⟩, ?_⟩
        have := h.2
        simp
        omega
    · exact ⟨h.1, by omega⟩
  · exact ⟨h.1, by omega⟩

/-- The gallery block keeps the list duplicate-free and never grows it
past its entry bound of 9. -/
theorem galleryStep_inv (item : List (String × PyVal)) (found : List String)
    (h : found.Nodup ∧ found.length ≤ 9) :
    (galleryStep item found).Nodup ∧ (galleryStep item found).length ≤ 9 := by
  unfold galleryStep
  split
  · refine foldl_preserve
      (fun l : List String => l.Nodup ∧ l.length ≤ 9) _ _ ?_ found h
    intro a g ha
    split
    · exact ha
    · rename_i hlen
      split
      · split
        · exact ha
        · rename_i u hu hc
          refine ⟨?_, ?_⟩
          · have hm : ¬ u ∈ a := by simpa using hc
            simp [List.nodup_append, ha.1, hm]
          · simp
            omega
      · exact ha
  · exact h

/-- C7: the image urls of every candidate the JSON strategy emits are
duplicate-free, but only the bound 9 — not the claimed 8 — holds: the
thumbnail block inserts without a cap check, and the overflow candidate
(8 walked urls plus a fresh thumbnail) really comes out with 9 urls. -/
theorem image_urls_dedup_cap_bug :
    (∀ (item : List (String × PyVal)) (index : Nat) (pd : ProductData),
        parseProductFromJson item index = some pd →
        pd.image_urls.Nodup ∧ pd.image_urls.length ≤ 9)
    ∧ parseProductFromJson overflowItem 0 = some overflowPd
    ∧ overflowPd.image_urls.length = 9 := by
  refine ⟨?_, by rfl, by rfl⟩
  intro item index pd h
  unfold parseProductFromJson at h
  dsimp only at h
  split at h
  · exact absurd h (by simp)
  · split at h
    · have hpd := Option.some.inj h
      subst hpd
      dsimp only
      exact galleryStep_inv item _ (thumbnailStep_inv item _ (imageFieldsStep_inv item))
    · exact absurd h (by simp)

/-- Witness for C7's universally quantified part at the overflow
candidate. -/
theorem image_urls_dedup_cap_bug_witness :
    overflowPd.image_urls.Nodup ∧ overflowPd.image_urls.length ≤ 9 :=
  image_urls_dedup_cap_bug.1 overflowItem 0 overflowPd (by rfl)
